import Mathlib

/-!
# WipeTowerIntegration: a shallow embedding

Model of `src/libslic3r/GCode/WipeTowerIntegration.cpp`:

* text (`std::string`) is a list of characters;
* `float` and `double` are abstract carriers `F` and `D` whose operations are
  collected in `FloatOps` and `DoubleOps`; every theorem that quantifies over
  them holds for IEEE-754 arithmetic as well as for the exact arithmetic
  `exactOps` used to run the scenarios;
* the `GCodeGenerator` collaborator is a record of operations over an abstract
  generator state `G`, threaded explicitly;
* C++ exceptions are values of `Error`; a throwing call still returns the
  member and generator state it leaves behind.
-/

namespace WipeTowerIntegration

/-! ## Text primitives (`std::string`, `boost::algorithm`) -/

/-- A `std::string`, character by character. -/
abbrev Text := List Char

/-- The call `boost::starts_with(s, p)`. -/
def starts_with : Text → Text → Bool
  | _, [] => true
  | [], _ :: _ => false
  | c :: cs, p :: ps => c == p && starts_with cs ps

/-- The call `s.find(t)`: index of the first occurrence of `t` in `s`,
`none` for `std::string::npos`. -/
def find : Text → Text → Option Nat
  | [], t => if starts_with [] t then some 0 else none
  | c :: cs, t =>
    if starts_with (c :: cs) t then some 0
    else (find cs t).map (fun i => i + 1)

/-- The call `s.erase(pos, n)` for `pos ≤ s.size()`: removes `min (n, s.size() - pos)`
characters starting at `pos`. -/
def erase (s : Text) (pos n : Nat) : Text :=
  s.take pos ++ s.drop (pos + n)

/-- The classic-locale `std::isspace` used by `boost::trim`. -/
def is_space (c : Char) : Bool :=
  c == ' ' || (9 ≤ c.toNat && c.toNat ≤ 13)

/-- The call `boost::trim(s)`: leading and trailing white space removed. -/
def trim (s : Text) : Text :=
  ((s.dropWhile is_space).reverse.dropWhile is_space).reverse

/-- The call `boost::replace_first(s, search, format)`; an empty search string
matches nothing. -/
def replace_first (s search format : Text) : Text :=
  if search = [] then s
  else match find s search with
    | none => s
    | some i => s.take i ++ format ++ s.drop (i + search.length)

/-- Worker of `replace_all`: `skip` counts the characters of a match that are
still to be dropped. -/
def replace_all_aux (search format : Text) : Text → Nat → Text
  | [], _ => []
  | _ :: cs, skip + 1 => replace_all_aux search format cs skip
  | c :: cs, 0 =>
    if starts_with (c :: cs) search then
      format ++ replace_all_aux search format cs (search.length - 1)
    else c :: replace_all_aux search format cs 0

/-- The call `boost::replace_all(s, search, format)`: every occurrence, found
left to right without rescanning the inserted text; an empty search string
matches nothing. -/
def replace_all (s search format : Text) : Text :=
  if search = [] then s else replace_all_aux search format s 0

/-! ## `std::istringstream` and `std::getline` -/

/-- An input string stream: the unread characters and the two state bits the
loop of `post_process_wipe_tower_moves` depends on. -/
structure IStringStream where
  buf : Text
  eofbit : Bool
  failbit : Bool
  deriving DecidableEq, Repr

/-- Characters up to the first line feed: the characters extracted, what
follows the line feed, and whether a line feed was found. -/
def read_line : Text → Text × Text × Bool
  | [] => ([], [], false)
  | c :: cs =>
    if c = '\n' then ([], cs, true)
    else ((c :: (read_line cs).1), (read_line cs).2.1, (read_line cs).2.2)

/-- The call `std::getline(stream, line)`.  When the stream is not good the
sentry fails: `failbit` is set and `line` keeps its old content.  Otherwise
`line` is cleared and filled up to the line feed (discarded) or to the end of
the text, where `eofbit` is set, together with `failbit` if nothing was
extracted. -/
def getline (s : IStringStream) (line : Text) : IStringStream × Text :=
  if s.eofbit || s.failbit then ({ s with failbit := true }, line)
  else if (read_line s.buf).2.2 then
    ({ s with buf := (read_line s.buf).2.1 }, (read_line s.buf).1)
  else
    ({ buf := [], eofbit := true, failbit := (read_line s.buf).1.isEmpty },
      (read_line s.buf).1)

/-! ## Numbers -/

/-- An `Eigen` two-vector. -/
structure Vec2 (F : Type) where
  x : F
  y : F
  deriving DecidableEq, Repr

/-- Outcome of the formatted extraction `stream >> value` of a `float` with
`std::noskipws` set: the value stored, the number of characters consumed and
whether `failbit` was raised. -/
structure ReadResult (F : Type) where
  value : F
  consumed : Nat
  fail : Bool

/-- The `float` operations the file uses.  `ne` is the comparison `!=`;
IEEE-754 equality is transitive, which `ne_trans` records. -/
structure FloatOps (F : Type) where
  add : F → F → F
  sub : F → F → F
  mul : F → F → F
  neg : F → F
  cos : F → F
  sin : F → F
  ne : F → F → Bool
  ne_trans : ∀ a b c, ne a b = false → ne b c = false → ne a c = false
  /-- The expression `rotation / 180.f * float(M_PI)`. -/
  deg_to_rad : F → F
  /-- The literal `-1000.1f`. -/
  old_pos_init : F
  /-- The extraction `line_str >> value`. -/
  read : Text → ReadResult F
  /-- Output under `std::fixed << std::setprecision(3)`. -/
  fixed3 : F → Text

variable {F : Type}

/-- The comparison `a != b` of two `Eigen` vectors: some coefficient differs. -/
def Vec2.ne (ops : FloatOps F) (a b : Vec2 F) : Bool :=
  ops.ne a.x b.x || ops.ne a.y b.y

/-- The product `Eigen::Rotation2Df(angle) * v`. -/
def rotate (ops : FloatOps F) (angle : F) (v : Vec2 F) : Vec2 F :=
  { x := ops.add (ops.mul (ops.cos angle) v.x) (ops.mul (ops.neg (ops.sin angle)) v.y)
    y := ops.add (ops.mul (ops.sin angle) v.x) (ops.mul (ops.cos angle) v.y) }

/-- The expression `Eigen::Rotation2Df(angle) * v + translation`. -/
def rotate_translate (ops : FloatOps F) (angle : F) (translation v : Vec2 F) : Vec2 F :=
  { x := ops.add (rotate ops angle v).x translation.x
    y := ops.add (rotate ops angle v).y translation.y }

/-! ## `post_process_wipe_tower_moves` -/

/-- The fields of `WipeTower::ToolChangeResult` read by this file.  `E` is the
element type of `extrusions`. -/
structure ToolChangeResult (F D E : Type) where
  print_z : D
  gcode : Text
  extrusions : List E
  start_pos : Vec2 F
  end_pos : Vec2 F
  initial_tool : Int
  new_tool : Int
  contour_tool : Int
  force_travel : Bool

/-- The literal `"[toolchange_gcode_from_wipe_tower_generator]"`. -/
def toolchange_tag : Text := "[toolchange_gcode_from_wipe_tower_generator]".toList

/-- The literal `"[deretraction_from_wipe_tower_generator]"`. -/
def deretraction_tag : Text := "[deretraction_from_wipe_tower_generator]".toList

/-- The local variables of `post_process_wipe_tower_moves` that live across
iterations of its loop. -/
structure LoopState (F : Type) where
  gcode_out : Text
  line : Text
  pos : Vec2 F
  transformed_pos : Vec2 F
  old_pos : Vec2 F
  extruder_offset : Vec2 F

/-- The tokenizer `while (line_str >> ch)` of a `G1` line.  An `X` or `Y`
starts a `float` extraction into `pos`; when it fails the stream is dead and the
loop ends, otherwise the characters it consumed are passed over (`skip` counts
those still ahead).  Every other character goes to `line_out`. -/
def tokenize (ops : FloatOps F) : Text → Nat → Vec2 F → Text → Vec2 F × Text
  | [], _, pos, line_out => (pos, line_out)
  | _ :: cs, skip + 1, pos, line_out => tokenize ops cs skip pos line_out
  | ch :: cs, 0, pos, line_out =>
    if ch = 'X' then
      if (ops.read cs).fail then ({ pos with x := (ops.read cs).value }, line_out)
      else tokenize ops cs (ops.read cs).consumed { pos with x := (ops.read cs).value } line_out
    else if ch = 'Y' then
      if (ops.read cs).fail then ({ pos with y := (ops.read cs).value }, line_out)
      else tokenize ops cs (ops.read cs).consumed { pos with y := (ops.read cs).value } line_out
    else tokenize ops cs 0 pos (line_out ++ [ch])

/-- The line after the never-skip tag has been looked for and cut out:
`line.erase(it, it + never_skip_tag().size())`. -/
def erase_never_skip (never_skip_tag line : Text) : Text :=
  match find line never_skip_tag with
  | none => line
  | some it => erase line it (it + never_skip_tag.length)

/-- The value of `pos` after the tokenizer has read a `G1` line: the never-skip
tag is cut out, `G1` is skipped, the rest is tokenized. -/
def G1_pos (ops : FloatOps F) (never_skip_tag : Text) (pos : Vec2 F) (line : Text) : Vec2 F :=
  (tokenize ops ((erase_never_skip never_skip_tag line).drop 2) 0 pos []).1

/-- The tokens of a `G1` line that are neither coordinates nor the tag:
`line_out.str()` after `boost::trim`. -/
def G1_rest (ops : FloatOps F) (never_skip_tag : Text) (pos : Vec2 F) (line : Text) : Text :=
  trim (tokenize ops ((erase_never_skip never_skip_tag line).drop 2) 0 pos []).2

/-- The text `oss.str() + line` of a rewritten `G1` line: `G1`, the
coordinates that changed or are forced, corrected by the extruder offset, and
the remaining tokens after a blank. -/
def G1_text (ops : FloatOps F) (never_skip : Bool) (transformed_pos old_pos offset : Vec2 F)
    (rest : Text) : Text :=
  "G1".toList
    ++ (if ops.ne transformed_pos.x old_pos.x || never_skip then
          " X".toList ++ ops.fixed3 (ops.sub transformed_pos.x offset.x) else [])
    ++ (if ops.ne transformed_pos.y old_pos.y || never_skip then
          " Y".toList ++ ops.fixed3 (ops.sub transformed_pos.y offset.y) else [])
    ++ (if !rest.isEmpty then " ".toList else [])
    ++ rest

/-- The branch `if (boost::starts_with(line, "G1 "))` of the loop body.
`never_skip_tag` is the value of `WipeTower::never_skip_tag()`. -/
def rewrite_G1 (ops : FloatOps F) (never_skip_tag : Text) (translation : Vec2 F) (angle : F)
    (st : LoopState F) : LoopState F :=
  let never_skip := (find st.line never_skip_tag).isSome
  let pos := G1_pos ops never_skip_tag st.pos st.line
  let line := G1_rest ops never_skip_tag st.pos st.line
  let transformed_pos := rotate_translate ops angle translation pos
  if Vec2.ne ops transformed_pos st.old_pos || never_skip || !line.isEmpty then
    { st with line := G1_text ops never_skip transformed_pos st.old_pos st.extruder_offset line
              pos := pos, transformed_pos := transformed_pos, old_pos := transformed_pos }
  else
    { st with line := line, pos := pos, transformed_pos := transformed_pos }

/-- The part of the loop body after the `G1` branch: the line is appended to
the output and, when it is the tool-change tag, the extruder offset is switched
and the extra move synthesized.  `offsets` is `m_extruder_offsets` after
`.cast<float>()`. -/
def emit_line (ops : FloatOps F) (offsets : Int → Vec2 F) (initial_tool new_tool : Int)
    (st : LoopState F) : LoopState F :=
  let st1 := { st with gcode_out := st.gcode_out ++ st.line ++ "\n".toList }
  if st1.line = toolchange_tag then
    if Vec2.ne ops (offsets new_tool) (offsets initial_tool) then
      { st1 with
        extruder_offset := offsets new_tool
        gcode_out := st1.gcode_out ++ "G1 X".toList
          ++ ops.fixed3 (ops.sub st1.transformed_pos.x (offsets new_tool).x)
          ++ " Y".toList
          ++ ops.fixed3 (ops.sub st1.transformed_pos.y (offsets new_tool).y)
          ++ "\n".toList }
    else { st1 with extruder_offset := offsets new_tool }
  else st1

/-- One pass through the body of `while (gcode_str)`, entered with `st.line`
just set by `std::getline`. -/
def loop_body (ops : FloatOps F) (never_skip_tag : Text) (offsets : Int → Vec2 F)
    (initial_tool new_tool : Int) (translation : Vec2 F) (angle : F)
    (st : LoopState F) : LoopState F :=
  emit_line ops offsets initial_tool new_tool
    (if starts_with st.line "G1 ".toList then
      rewrite_G1 ops never_skip_tag translation angle st
    else st)

/-- The loop `while (gcode_str) { std::getline(gcode_str, line); ... }`, with
an iteration bound `fuel`. -/
def while_loop (body : LoopState F → LoopState F) :
    Nat → IStringStream → LoopState F → LoopState F
  | 0, _, st => st
  | fuel + 1, s, st =>
    if s.failbit then st
    else while_loop body fuel (getline s st.line).1 (body { st with line := (getline s st.line).2 })

/-- The loop body run on the line `l` that `std::getline` has just stored. -/
def process_line (ops : FloatOps F) (never_skip_tag : Text) (offsets : Int → Vec2 F)
    (initial_tool new_tool : Int) (translation : Vec2 F) (angle : F)
    (st : LoopState F) (l : Text) : LoopState F :=
  loop_body ops never_skip_tag offsets initial_tool new_tool translation angle
    { st with line := l }

/-- The text cut at its line feeds: one more piece than there are line
feeds. -/
def split_lines : Text → List Text
  | [] => [[]]
  | c :: cs =>
    if c = '\n' then [] :: split_lines cs
    else match split_lines cs with
      | [] => [[c]]
      | l :: ls => (c :: l) :: ls

/-- What the loop `while (gcode_str)` does with the pieces of the text: the
body runs once on every piece but the last; on the last piece it runs once when
the piece is empty, and otherwise twice, the second time on the line left by
the first, since `std::getline` then fails without touching `line`. -/
def run_lines (body : LoopState F → LoopState F) : List Text → LoopState F → LoopState F
  | [], st => st
  | [l], st =>
    if l = [] then body { st with line := [] }
    else body (body { st with line := l })
  | l :: l2 :: ls, st => run_lines body (l2 :: ls) (body { st with line := l })

/-- The function `WipeTowerIntegration::post_process_wipe_tower_moves`.  The
loop runs until `failbit` stops it; `tcr.gcode.length + 2` iterations are
enough for that (`while_loop_eq_run_lines`). -/
def post_process_wipe_tower_moves {D E : Type} (ops : FloatOps F) (never_skip_tag : Text)
    (offsets : Int → Vec2 F) (tcr : ToolChangeResult F D E) (translation : Vec2 F)
    (angle : F) : Text :=
  (while_loop
    (loop_body ops never_skip_tag offsets tcr.initial_tool tcr.new_tool translation angle)
    (tcr.gcode.length + 2)
    { buf := tcr.gcode, eofbit := false, failbit := false }
    { gcode_out := []
      line := []
      pos := tcr.start_pos
      transformed_pos := rotate_translate ops angle translation tcr.start_pos
      old_pos := { x := ops.old_pos_init, y := ops.old_pos_init }
      extruder_offset := offsets tcr.initial_tool }).gcode_out

/-! ## The collaborators of `append_tcr` -/

/-- An `Eigen` three-vector. -/
structure Vec3 (D : Type) where
  x : D
  y : D
  z : D

/-- A scaled integer point, `Slic3r::Point`. -/
structure Point where
  x : Int
  y : Int
  deriving DecidableEq, Repr

/-- A scaled integer point in space, `Vec3crd`. -/
structure Point3 where
  x : Int
  y : Int
  z : Int
  deriving DecidableEq, Repr

/-- The `double` operations the file uses, and the conversions from `float`. -/
structure DoubleOps (F D : Type) where
  /-- The literal `-1.`. -/
  minus_one : D
  /-- The comparison `a == b`. -/
  eq : D → D → Bool
  /-- The helper `is_approx(a, b)` of `libslic3r.h`. -/
  is_approx : D → D → Bool
  /-- Promotion of a `float` to `double`. -/
  of_float : F → D
  sub : D → D → D
  /-- The macro `scale_(x)` followed by the conversion to a coordinate. -/
  scale_ : D → Int
  /-- The helper `scaled(x)`. -/
  scaled : D → Int
  /-- The comparison `x > 0`. -/
  gt_zero : D → Bool
  /-- The helper `fast_round_up<unsigned int>(x)`. -/
  fast_round_up : D → Nat

/-- The configuration values read through `gcodegen.config()`. -/
structure PrintConfig (D : Type) where
  single_extruder_multi_material : Bool
  /-- The lookup `filament_multitool_ramming.get_at(tool)`. -/
  filament_multitool_ramming : Int → Bool
  wipe_tower : Bool
  default_acceleration : D
  wipe_tower_acceleration : D

/-- The operations of `GCodeGenerator`, of its `GCodeWriter` and of the utility
library that `append_tcr` and `tool_change` call, over the generator state `G`.
An operation that returns text and may change the generator maps a state to
the text and the next state; a query reads the state.  Comments passed to the
writer are kept as arguments.  The operations are taken to return: none of
them throws. -/
structure Generator (G F D : Type) where
  writer_get_position : G → Vec3 D
  writer_update_position : Vec3 D → G → G
  writer_need_toolchange : G → Int → Bool
  writer_travel_to_z : D → Text → G → Text × G
  writer_travel_to_xy : Vec2 D → Text → G → Text × G
  writer_get_travel_to_z_gcode : D → Text → G → Text × G
  writer_retract : G → Text × G
  writer_unretract : G → Text × G
  writer_set_print_acceleration : Nat → G → Text × G
  config : G → PrintConfig D
  origin : G → Vec2 D
  maybe_stop_instance : G → Text × G
  retract_and_wipe : G → Text × G
  /-- Assignment to `m_avoid_crossing_perimeters.use_external_mp_once`. -/
  set_use_external_mp_once : Bool → G → G
  /-- Whether `m_current_layer_first_position` holds a value. -/
  current_layer_first_position : G → Bool
  last_position : G → Option Point
  /-- Assignment to `last_position`. -/
  set_last_position : Point → G → G
  travel_to : Point → Point → Text → G → Text × G
  point_to_gcode : G → Point → Vec2 D
  travel_to_first_position : Point3 → D → G → Text × G
  unretract : G → Text × G
  set_extruder : Int → D → G → Text × G
  /-- The library function `unescape_string_cstyle`. -/
  unescape_string_cstyle : Text → Text

/-- The ways a call can fail.  `BareThrow` is the statement `throw;` executed
with no exception in flight; `OutOfRange` stands for an unchecked vector index
past the end. -/
inductive Error where
  | InvalidArgument
  | RuntimeError
  | BareThrow
  | OutOfRange
  deriving DecidableEq, Repr

/-- The data members of `WipeTowerIntegration`.  `m_extruder_offsets` holds the
offsets after `.cast<float>()`; `m_layer_idx` is natural by
`assert(m_layer_idx >= 0)`. -/
structure Members (F D E : Type) where
  m_wipe_tower_pos : Vec2 F
  m_wipe_tower_rotation : F
  m_extruder_offsets : Int → Vec2 F
  m_priming : List (ToolChangeResult F D E)
  m_tool_changes : List (List (ToolChangeResult F D E))
  m_layer_idx : Nat
  m_tool_change_idx : Int
  m_last_wipe_tower_print_z : D

variable {D E G : Type}

/-- The static helper `wipe_tower_point_to_object_point`. -/
def wipe_tower_point_to_object_point (dops : DoubleOps F D) (gen : Generator G F D) (g : G)
    (wipe_tower_pt : Vec2 F) : Point :=
  { x := dops.scale_ (dops.sub (dops.of_float wipe_tower_pt.x) (gen.origin g).x)
    y := dops.scale_ (dops.sub (dops.of_float wipe_tower_pt.y) (gen.origin g).y) }

/-- The value of `z` after `if (z == -1.) z = current_z;`. -/
def target_z (dops : DoubleOps F D) (z current_z : D) : D :=
  if dops.eq z dops.minus_one then current_z else z

/-- The flag `is_ramming`. -/
def is_ramming (cfg : PrintConfig D) (initial_tool : Int) : Bool :=
  cfg.single_extruder_multi_material
    || (!cfg.single_extruder_multi_material && cfg.filament_multitool_ramming initial_tool)

/-- The flag `should_travel_to_tower`. -/
def should_travel_to_tower (force_travel needs_toolchange ramming will_go_down : Bool) : Bool :=
  force_travel || !needs_toolchange || ramming || will_go_down

/-- The block `if (should_travel_to_tower) { ... }`: text appended and next
generator state. -/
def travel_to_tower (dops : DoubleOps F D) (gen : Generator G F D) (start_pos : Vec2 F)
    (z current_z : D) (g : G) : Text × G :=
  let xy_point := wipe_tower_point_to_object_point dops gen g start_pos
  let r1 := gen.maybe_stop_instance g
  let r2 := gen.retract_and_wipe r1.2
  let g3 := gen.set_use_external_mp_once true r2.2
  let comment : Text := "Travel to a Wipe Tower".toList
  let r4 : Text × G :=
    if gen.current_layer_first_position g3 then
      match gen.last_position g3 with
      | some last => gen.travel_to last xy_point comment g3
      | none =>
        let a := gen.writer_travel_to_xy (gen.point_to_gcode g3 xy_point) comment g3
        let b := gen.writer_get_travel_to_z_gcode z comment a.2
        (a.1 ++ b.1, b.2)
    else
      gen.travel_to_first_position
        { x := xy_point.x, y := xy_point.y, z := dops.scaled z } current_z g3
  let r5 := gen.unretract r4.2
  (r1.1 ++ r2.1 ++ r4.1 ++ r5.1, r5.2)

/-- The blocks that move to another height: `retract`, `travel_to_z` with the
given comment, `unretract`. -/
def change_z (gen : Generator G F D) (z : D) (comment : Text) (g : G) : Text × G :=
  let r1 := gen.writer_retract g
  let r2 := gen.writer_travel_to_z z comment r1.2
  let r3 := gen.writer_unretract r2.2
  (r1.1 ++ r2.1 ++ r3.1, r3.2)

/-- The three sub-blocks of lines 87 to 99. -/
structure SubBlocks (G : Type) where
  contour_toolchange_gcode_str : Text
  inner_toolchange_gcode_str : Text
  deretraction_str : Text
  state : G

/-- Lines 87 to 99: the two tool activation texts and, when the wipe tower is
enabled in the configuration, the de-retraction text. -/
def sub_blocks {E : Type} (gen : Generator G F D) (tcr : ToolChangeResult F D E) (z : D) (g : G) :
    SubBlocks G :=
  let r1 := gen.set_extruder tcr.contour_tool tcr.print_z g
  let r2 := gen.set_extruder tcr.new_tool tcr.print_z r1.2
  if (gen.config r2.2).wipe_tower then
    let r3 := gen.writer_get_travel_to_z_gcode z "restore layer      Z".toList r2.2
    let position := gen.writer_get_position r3.2
    let g4 := gen.writer_update_position { position with z := z } r3.2
    let r5 := gen.unretract g4
    { contour_toolchange_gcode_str := r1.1, inner_toolchange_gcode_str := r2.1,
      deretraction_str := r3.1 ++ r5.1, state := r5.2 }
  else
    { contour_toolchange_gcode_str := r1.1, inner_toolchange_gcode_str := r2.1,
      deretraction_str := [], state := r2.2 }

/-- Lines 107 to 109: the two `replace_first` of the tool-change tag and the
`replace_all` of the de-retraction tag. -/
def insert_sub_blocks (tcr_rotated_gcode contour inner deretraction : Text) : Text :=
  replace_all
    (replace_first (replace_first tcr_rotated_gcode toolchange_tag contour) toolchange_tag inner)
    deretraction_tag deretraction

/-- Lines 113 to 129: the acceleration commands around the block, the phony
move to the end position, the return to the original height. -/
def finish_block (dops : DoubleOps F D) (gen : Generator G F D) (gcode tcr_gcode : Text)
    (end_pos : Vec2 F) (z current_z : D) (g : G) : Text × G :=
  let r1 : Text × G :=
    if dops.gt_zero (gen.config g).default_acceleration then
      gen.writer_set_print_acceleration
        (dops.fast_round_up (gen.config g).wipe_tower_acceleration) g
    else ([], g)
  let r2 := gen.writer_set_print_acceleration
    (dops.fast_round_up (gen.config r1.2).default_acceleration) r1.2
  let r3 := gen.writer_travel_to_xy
    { x := dops.of_float end_pos.x, y := dops.of_float end_pos.y } [] r2.2
  let g4 := gen.set_last_position (wipe_tower_point_to_object_point dops gen r3.2 end_pos) r3.2
  let r5 : Text × G :=
    if !dops.is_approx z current_z then
      change_z gen current_z "Travel back up to the topmost object layer.".toList g4
    else ([], g4)
  (gcode ++ r1.1 ++ tcr_gcode ++ r2.1 ++ r5.1, gen.set_use_external_mp_once true r5.2)

/-- What lines 42 to 85 leave behind: the text gathered so far, the target
height, the height on entry and the generator state. -/
structure Approach (G D : Type) where
  gcode : Text
  z : D
  current_z : D
  state : G

/-- Lines 42 to 85: the initial `travel_to_z`, the decision whether to travel
to the tower and the travel, the move down to the target height. -/
def approach {E : Type} (dops : DoubleOps F D) (gen : Generator G F D)
    (tcr : ToolChangeResult F D E) (start_pos : Vec2 F) (new_extruder_id : Int) (z : D)
    (g : G) : Approach G D :=
  let current_z := (gen.writer_get_position g).z
  let r1 := gen.writer_travel_to_z current_z [] g
  let z := target_z dops z current_z
  let needs_toolchange := gen.writer_need_toolchange r1.2 new_extruder_id
  let will_go_down := !dops.is_approx z current_z
  let r2 : Text × G :=
    if should_travel_to_tower tcr.force_travel needs_toolchange
        (is_ramming (gen.config r1.2) tcr.initial_tool) will_go_down then
      travel_to_tower dops gen start_pos z current_z r1.2
    else ([], r1.2)
  let r3 : Text × G :=
    if will_go_down then
      change_z gen z "Travel down to the last wipe tower layer.".toList r2.2
    else ([], r2.2)
  { gcode := r1.1 ++ r2.1 ++ r3.1, z := z, current_z := current_z, state := r3.2 }

/-- The sub-blocks `append_tcr` obtains in a call that passes the tool
check. -/
def append_tcr_sub_blocks (ops : FloatOps F) (dops : DoubleOps F D) (gen : Generator G F D)
    (m : Members F D E) (g : G) (tcr : ToolChangeResult F D E)
    (new_extruder_id : Int) (z : D) : SubBlocks G :=
  sub_blocks gen tcr
    (approach dops gen tcr
      (rotate_translate ops (ops.deg_to_rad m.m_wipe_tower_rotation) m.m_wipe_tower_pos
        tcr.start_pos) new_extruder_id z g).z
    (approach dops gen tcr
      (rotate_translate ops (ops.deg_to_rad m.m_wipe_tower_rotation) m.m_wipe_tower_pos
        tcr.start_pos) new_extruder_id z g).state

/-- The method `WipeTowerIntegration::append_tcr`: the outcome and the
generator state it leaves. -/
def append_tcr (ops : FloatOps F) (dops : DoubleOps F D) (gen : Generator G F D)
    (never_skip_tag : Text) (m : Members F D E) (g : G) (tcr : ToolChangeResult F D E)
    (new_extruder_id : Int) (z : D) : Except Error Text × G :=
  if new_extruder_id ≠ -1 ∧ new_extruder_id ≠ tcr.new_tool then
    (.error .InvalidArgument, g)
  else
    let alpha := ops.deg_to_rad m.m_wipe_tower_rotation
    let start_pos := rotate_translate ops alpha m.m_wipe_tower_pos tcr.start_pos
    let end_pos := rotate_translate ops alpha m.m_wipe_tower_pos tcr.end_pos
    let tcr_rotated_gcode :=
      post_process_wipe_tower_moves ops never_skip_tag m.m_extruder_offsets tcr
        m.m_wipe_tower_pos alpha
    let ap := approach dops gen tcr start_pos new_extruder_id z g
    let sb := sub_blocks gen tcr ap.z ap.state
    if sb.contour_toolchange_gcode_str.isEmpty || sb.inner_toolchange_gcode_str.isEmpty
        || sb.deretraction_str.isEmpty then
      (.error .BareThrow, sb.state)
    else
      let tcr_gcode := gen.unescape_string_cstyle
        (insert_sub_blocks tcr_rotated_gcode sb.contour_toolchange_gcode_str
          sb.inner_toolchange_gcode_str sb.deretraction_str)
      let r := finish_block dops gen ap.gcode tcr_gcode end_pos ap.z ap.current_z sb.state
      (.ok r.1, r.2)

/-- The loop of `prime` over the remaining priming entries, `gcode` being the
text gathered so far. -/
def prime_loop (ops : FloatOps F) (dops : DoubleOps F D) (gen : Generator G F D)
    (never_skip_tag : Text) (m : Members F D E) :
    List (ToolChangeResult F D E) → G → Text → Except Error Text × G
  | [], g, gcode => (.ok gcode, g)
  | tcr :: rest, g, gcode =>
    if !tcr.extrusions.isEmpty then
      match append_tcr ops dops gen never_skip_tag m g tcr tcr.new_tool dops.minus_one with
      | (.ok t, g1) => prime_loop ops dops gen never_skip_tag m rest g1 (gcode ++ t)
      | (.error e, g1) => (.error e, g1)
    else prime_loop ops dops gen never_skip_tag m rest g gcode

/-- The method `WipeTowerIntegration::prime`; `append_tcr` is called with its
default `z`, the sentinel `-1.`. -/
def prime (ops : FloatOps F) (dops : DoubleOps F D) (gen : Generator G F D)
    (never_skip_tag : Text) (m : Members F D E) (g : G) : Except Error Text × G :=
  prime_loop ops dops gen never_skip_tag m m.m_priming g []

/-- The conversion `(int)n` of a `size_t`. -/
def int_of_size (n : Nat) : Int := ((n + 2 ^ 31) % 2 ^ 32 : Nat) - 2 ^ 31

/-- The conversion `size_t(i)` of an `int`. -/
def size_of_int (i : Int) : Nat := (i % 2 ^ 64).toNat

/-- The method `WipeTowerIntegration::tool_change`: the outcome, the members
and the generator state it leaves.  The post-increment of `m_tool_change_idx`
happens while the arguments of `append_tcr` are evaluated, so it stays when
`append_tcr` throws; the assignment to `m_last_wipe_tower_print_z` does not. -/
def tool_change (ops : FloatOps F) (dops : DoubleOps F D) (gen : Generator G F D)
    (never_skip_tag : Text) (m : Members F D E) (g : G) (extruder_id : Int)
    (finish_layer : Bool) : Except Error Text × Members F D E × G :=
  if gen.writer_need_toolchange g extruder_id || finish_layer then
    if (m.m_layer_idx : Int) < int_of_size m.m_tool_changes.length then
      match m.m_tool_changes[m.m_layer_idx]? with
      | none => (.error .OutOfRange, m, g)
      | some layer =>
        if ¬ (size_of_int m.m_tool_change_idx < layer.length) then
          (.error .RuntimeError, m, g)
        else
          match layer[size_of_int m.m_tool_change_idx]? with
          | none => (.error .OutOfRange, m, g)
          | some tcr =>
            match append_tcr ops dops gen never_skip_tag m g tcr extruder_id dops.minus_one with
            | (.ok t, g1) =>
              (.ok t, { m with m_tool_change_idx := m.m_tool_change_idx + 1
                               m_last_wipe_tower_print_z := dops.minus_one }, g1)
            | (.error e, g1) =>
              (.error e, { m with m_tool_change_idx := m.m_tool_change_idx + 1 }, g1)
    else (.ok [], m, g)
  else (.ok [], m, g)

/-- The method `WipeTowerIntegration::finalize`. -/
def finalize (_m : Members F D E) (g : G) : Text × G := ([], g)

/-! ## Exact arithmetic, for running scenarios

`exactOps` computes with fractions, that is with `float` operations that never
round.  Decimal text is read the way `std::num_get` accumulates it (sign,
digits, one decimal point, an exponent) and written rounded to three decimals.
Cosine and sine are polynomials that are exact at angle 0, the only angle the
scenarios below use. -/

/-- A fraction `num / den` with a positive denominator, not normalised. -/
structure Exact where
  num : Int
  den : Nat
  den_pos : 0 < den

namespace Exact

/-- The integer `n` as a fraction. -/
def ofInt (n : Int) : Exact := { num := n, den := 1, den_pos := Nat.one_pos }

/-- Sum of two fractions. -/
def add (a b : Exact) : Exact :=
  { num := a.num * b.den + b.num * a.den, den := a.den * b.den,
    den_pos := Nat.mul_pos a.den_pos b.den_pos }

/-- Opposite of a fraction. -/
def neg (a : Exact) : Exact := { a with num := -a.num }

/-- Difference of two fractions. -/
def sub (a b : Exact) : Exact := add a (neg b)

/-- Product of two fractions. -/
def mul (a b : Exact) : Exact :=
  { num := a.num * b.num, den := a.den * b.den,
    den_pos := Nat.mul_pos a.den_pos b.den_pos }

/-- Quotient of a fraction by a positive natural number (by 1 when `n` is
0). -/
def divNat (a : Exact) (n : Nat) : Exact :=
  { num := a.num, den := a.den * (if n = 0 then 1 else n),
    den_pos := Nat.mul_pos a.den_pos (by split <;> omega) }

/-- The comparison `a != b` of the values of two fractions. -/
def ne (a b : Exact) : Bool := decide (a.num * b.den ≠ b.num * a.den)

end Exact

/-- What the extraction of a `float` has accumulated so far. -/
structure NumAcc where
  negative : Bool := false
  mantissa : Nat := 0
  decimals : Nat := 0
  found_mantissa : Bool := false
  found_dec : Bool := false
  found_sci : Bool := false
  exp_negative : Bool := false
  exp_digits : Nat := 0
  exponent : Nat := 0
  consumed : Nat := 0

/-- Value of a decimal digit character. -/
def digit_value (c : Char) : Option Nat :=
  if 48 ≤ c.toNat && c.toNat ≤ 57 then some (c.toNat - 48) else none

/-- The main accumulation loop of `num_get` for floating point, after the
optional sign: digits, one decimal point before any exponent, and one exponent
marker (with its optional sign) after at least one mantissa digit. -/
def scan_float : Text → NumAcc → NumAcc
  | [], a => a
  | c :: cs, a =>
    match digit_value c with
    | some d =>
      if a.found_sci then
        scan_float cs { a with exponent := a.exponent * 10 + d,
                               exp_digits := a.exp_digits + 1, consumed := a.consumed + 1 }
      else
        scan_float cs { a with mantissa := a.mantissa * 10 + d, found_mantissa := true,
                               decimals := if a.found_dec then a.decimals + 1 else 0,
                               consumed := a.consumed + 1 }
    | none =>
      if c = '.' && !a.found_dec && !a.found_sci then
        scan_float cs { a with found_dec := true, consumed := a.consumed + 1 }
      else if (c = 'e' || c = 'E') && !a.found_sci && a.found_mantissa then
        match cs with
        | [] => { a with found_sci := true, consumed := a.consumed + 1 }
        | s :: rest =>
          if s = '+' || s = '-' then
            scan_float rest { a with found_sci := true, exp_negative := (s = '-'),
                                     consumed := a.consumed + 2 }
          else
            scan_float (s :: rest) { a with found_sci := true, consumed := a.consumed + 1 }
      else a

/-- The accumulation of `num_get`, optional sign included. -/
def extract_float : Text → NumAcc
  | [] => {}
  | c :: cs =>
    if c = '+' || c = '-' then scan_float cs { negative := (c = '-'), consumed := 1 }
    else scan_float (c :: cs) {}

/-- The fraction a completed accumulation denotes. -/
def NumAcc.value (a : NumAcc) : Exact :=
  { num := (if a.negative then -1 else 1) * (a.mantissa : Int)
      * (if a.exp_negative then 1 else (10 : Int) ^ a.exponent)
    den := 10 ^ a.decimals * (if a.exp_negative then 10 ^ a.exponent else 1)
    den_pos := Nat.mul_pos (Nat.pos_pow_of_pos _ (by decide))
      (by split
          · exact Nat.pos_pow_of_pos _ (by decide)
          · exact Nat.one_pos) }

/-- The extraction `stream >> value`: it fails, storing zero, when no mantissa
digit was found or an exponent marker is followed by no digit. -/
def read_exact (s : Text) : ReadResult Exact :=
  if (extract_float s).found_mantissa
      && (!(extract_float s).found_sci || 0 < (extract_float s).exp_digits) then
    { value := (extract_float s).value, consumed := (extract_float s).consumed, fail := false }
  else { value := Exact.ofInt 0, consumed := (extract_float s).consumed, fail := true }

/-- Decimal digits of a natural number, most significant first; `fuel` bounds
the number of digits. -/
def nat_digits : Nat → Nat → Text
  | 0, _ => []
  | fuel + 1, n =>
    if n < 10 then [Char.ofNat (48 + n)]
    else nat_digits fuel (n / 10) ++ [Char.ofNat (48 + n % 10)]

/-- Nearest multiple of one thousandth of `n / d`, in thousandths, ties to
even. -/
def round_thousandths (n d : Nat) : Nat :=
  if 2 * (n * 1000 % d) < d then n * 1000 / d
  else if d < 2 * (n * 1000 % d) then n * 1000 / d + 1
  else if n * 1000 / d % 2 = 0 then n * 1000 / d else n * 1000 / d + 1

/-- Output of a number under `std::fixed << std::setprecision(3)`. -/
def fixed3_exact (q : Exact) : Text :=
  (if q.num < 0 then ['-'] else [])
    ++ nat_digits (round_thousandths q.num.natAbs q.den + 1)
        (round_thousandths q.num.natAbs q.den / 1000)
    ++ ['.']
    ++ [Char.ofNat (48 + round_thousandths q.num.natAbs q.den / 100 % 10),
        Char.ofNat (48 + round_thousandths q.num.natAbs q.den / 10 % 10),
        Char.ofNat (48 + round_thousandths q.num.natAbs q.den % 10)]

/-- Arithmetic on fractions: `float` operations without rounding. -/
def exactOps : FloatOps Exact where
  add := Exact.add
  sub := Exact.sub
  mul := Exact.mul
  neg := Exact.neg
  cos := fun a =>
    Exact.add (Exact.sub (Exact.ofInt 1) (Exact.divNat (Exact.mul a a) 2))
      (Exact.divNat (Exact.mul (Exact.mul a a) (Exact.mul a a)) 24)
  sin := fun a => Exact.sub a (Exact.divNat (Exact.mul a (Exact.mul a a)) 6)
  ne := Exact.ne
  ne_trans := by
    intro a b c h1 h2
    have ha := a.den_pos
    have hb := b.den_pos
    have hc := c.den_pos
    simp only [Exact.ne, ne_eq, decide_not, Bool.not_eq_false', decide_eq_true_eq] at h1 h2 ⊢
    have hb0 : (b.den : Int) ≠ 0 := by 
      have := hb.ne.symm
      exact_mod_cast this
    apply mul_right_cancel₀ hb0
    calc a.num * c.den * b.den = a.num * b.den * c.den := by ring
      _ = b.num * a.den * c.den := by rw [h1]
      _ = b.num * c.den * a.den := by ring
      _ = c.num * b.den * a.den := by rw [h2]
      _ = c.num * a.den * b.den := by ring
  deg_to_rad := fun a => Exact.mul (Exact.divNat a 180) { num := 13176795, den := 4194304, den_pos := by decide }
  old_pos_init := { num := -10001, den := 10, den_pos := by decide }
  read := read_exact
  fixed3 := fixed3_exact

/-- The value of `WipeTower::never_skip_tag()` in the upstream header. -/
def upstream_never_skip_tag : Text := "_GCODE_WIPE_TOWER_NEVER_SKIP_TAG".toList

/-- The zero vector. -/
def zero2 : Vec2 Exact := { x := Exact.ofInt 0, y := Exact.ofInt 0 }

/-- Arithmetic on fractions for `double`: `is_approx` compares the distance
with the default precision `1e-4`, `scale_` and `scaled` divide by the scaling
factor `1e-6` and round half away from zero, `fast_round_up` is the floor of the
value plus one half, for a value that is not negative. -/
def exactDops : DoubleOps Exact Exact where
  minus_one := Exact.ofInt (-1)
  eq := fun a b => !Exact.ne a b
  is_approx := fun a b => decide ((Exact.sub a b).num.natAbs * 10000 < (Exact.sub a b).den)
  of_float := fun a => a
  sub := Exact.sub
  scale_ := fun a =>
    (if a.num < 0 then -1 else 1) * (((2 * a.num.natAbs * 1000000 + a.den) / (2 * a.den) : Nat) : Int)
  scaled := fun a =>
    (if a.num < 0 then -1 else 1) * (((2 * a.num.natAbs * 1000000 + a.den) / (2 * a.den) : Nat) : Int)
  gt_zero := fun a => decide (0 < a.num)
  fast_round_up := fun a => (2 * a.num.toNat + a.den) / (2 * a.den)

/-- A call received by the recording generator. -/
inductive Call where
  | writer_update_position
  | writer_travel_to_z (comment : Text)
  | writer_travel_to_xy
  | writer_get_travel_to_z_gcode
  | writer_retract
  | writer_unretract
  | writer_set_print_acceleration (value : Nat)
  | maybe_stop_instance
  | retract_and_wipe
  | set_use_external_mp_once
  | set_last_position
  | travel_to
  | travel_to_first_position
  | unretract
  | set_extruder (tool : Int)
  deriving DecidableEq, Repr

/-- State of the recording generator: the calls received so far, oldest
first, and the values its queries answer with. -/
structure Recorder where
  calls : List Call
  position : Vec3 Exact
  current_tool : Option Int
  first_position : Bool
  last_position : Option Point
  use_external_mp_once : Bool

/-- A generator that records every call it receives.  Each text-producing
operation answers with one line naming it; `need_toolchange` holds when no tool
is active or another one is, and `set_extruder` activates the tool. -/
def recGen (cfg : PrintConfig Exact) : Generator Recorder Exact Exact where
  writer_get_position := fun g => g.position
  writer_update_position := fun p g =>
    { g with calls := g.calls ++ [Call.writer_update_position], position := p }
  writer_need_toolchange := fun g id => g.current_tool ≠ some id
  writer_travel_to_z := fun z c g =>
    ("G1 Z\n".toList, { g with calls := g.calls ++ [Call.writer_travel_to_z c],
                               position := { g.position with z := z } })
  writer_travel_to_xy := fun _ _ g =>
    ("G1 X Y\n".toList, { g with calls := g.calls ++ [Call.writer_travel_to_xy] })
  writer_get_travel_to_z_gcode := fun _ _ g =>
    ("G1 Z\n".toList, { g with calls := g.calls ++ [Call.writer_get_travel_to_z_gcode] })
  writer_retract := fun g =>
    ("G1 E-1\n".toList, { g with calls := g.calls ++ [Call.writer_retract] })
  writer_unretract := fun g =>
    ("G1 E1\n".toList, { g with calls := g.calls ++ [Call.writer_unretract] })
  writer_set_print_acceleration := fun n g =>
    ("M204\n".toList, { g with calls := g.calls ++ [Call.writer_set_print_acceleration n] })
  config := fun _ => cfg
  origin := fun _ => zero2
  maybe_stop_instance := fun g =>
    ([], { g with calls := g.calls ++ [Call.maybe_stop_instance] })
  retract_and_wipe := fun g =>
    ("G1 E-1\n".toList, { g with calls := g.calls ++ [Call.retract_and_wipe] })
  set_use_external_mp_once := fun b g =>
    { g with calls := g.calls ++ [Call.set_use_external_mp_once], use_external_mp_once := b }
  current_layer_first_position := fun g => g.first_position
  last_position := fun g => g.last_position
  set_last_position := fun p g =>
    { g with calls := g.calls ++ [Call.set_last_position], last_position := some p }
  travel_to := fun _ _ _ g =>
    ("G1 X Y\n".toList, { g with calls := g.calls ++ [Call.travel_to] })
  point_to_gcode := fun _ p => { x := Exact.ofInt p.x, y := Exact.ofInt p.y }
  travel_to_first_position := fun _ _ g =>
    ("G1 X Y Z\n".toList, { g with calls := g.calls ++ [Call.travel_to_first_position],
                                   first_position := true })
  unretract := fun g =>
    ("G1 E1\n".toList, { g with calls := g.calls ++ [Call.unretract] })
  set_extruder := fun id _ g =>
    ("T\n".toList, { g with calls := g.calls ++ [Call.set_extruder id], current_tool := some id })
  unescape_string_cstyle := fun s => s

/-- A configuration with the wipe tower enabled, several extruders and no
ramming. -/
def cfg0 : PrintConfig Exact where
  single_extruder_multi_material := false
  filament_multitool_ramming := fun _ => false
  wipe_tower := true
  default_acceleration := Exact.ofInt 0
  wipe_tower_acceleration := Exact.ofInt 0

/-- A fresh recorder: nothing called yet, tool 0 active, at height 1. -/
def rec0 : Recorder where
  calls := []
  position := { x := Exact.ofInt 0, y := Exact.ofInt 0, z := Exact.ofInt 1 }
  current_tool := some 0
  first_position := true
  last_position := none
  use_external_mp_once := false

/-- The block of the end-to-end scenario, with the upstream never-skip tag. -/
def scenario_block : Text :=
  "G1 X10.000 Y10.000\nG1 X10.000 Y10.000\nG1 X20.000 Y10.000 _GCODE_WIPE_TOWER_NEVER_SKIP_TAG\n".toList

/-- The loop state on entry of `post_process_wipe_tower_moves` for a block
that starts at the origin, unrotated, without nozzle offsets. -/
def loop0 : LoopState Exact where
  gcode_out := []
  line := []
  pos := zero2
  transformed_pos := zero2
  old_pos := { x := exactOps.old_pos_init, y := exactOps.old_pos_init }
  extruder_offset := zero2

/-- A planned change from tool 0 to tool 1 with the given text. -/
def tcr0 (gcode : Text) : ToolChangeResult Exact Exact Unit where
  print_z := Exact.ofInt 1
  gcode := gcode
  extrusions := [()]
  start_pos := zero2
  end_pos := zero2
  initial_tool := 0
  new_tool := 1
  contour_tool := 0
  force_travel := false

/-- Members with the tower at the origin, unrotated, no nozzle offsets and the
given plan. -/
def members0 (plan : List (List (ToolChangeResult Exact Exact Unit))) (layer : Nat)
    (idx : Int) : Members Exact Exact Unit where
  m_wipe_tower_pos := zero2
  m_wipe_tower_rotation := Exact.ofInt 0
  m_extruder_offsets := fun _ => zero2
  m_priming := []
  m_tool_changes := plan
  m_layer_idx := layer
  m_tool_change_idx := idx
  m_last_wipe_tower_print_z := Exact.ofInt 0

/-- The claim's reading of `prime`: the changes of the list are carried out in
order, each with its own `new_tool` and the default `z`, and their texts
concatenated; the first failure ends the run. -/
def concat_changes {F D E G : Type} (ops : FloatOps F) (dops : DoubleOps F D)
    (gen : Generator G F D) (never_skip_tag : Text) (m : Members F D E) :
    List (ToolChangeResult F D E) → G → Except Error Text × G
  | [], g => (.ok [], g)
  | tcr :: rest, g =>
    match append_tcr ops dops gen never_skip_tag m g tcr tcr.new_tool dops.minus_one with
    | (.ok t, g1) =>
      match concat_changes ops dops gen never_skip_tag m rest g1 with
      | (.ok ts, g2) => (.ok (t ++ ts), g2)
      | (.error e, g2) => (.error e, g2)
    | (.error e, g1) => (.error e, g1)

/-- The claim's reading of token retention on the text behind `G1`, for a text
in which every `X` and `Y` starts a coordinate whose number the extraction
accepts: `Retained ops text kept` holds when `kept` is `text` without those
letters and without the characters their numbers take, in the original
order. -/
inductive Retained {F : Type} (ops : FloatOps F) : Text → Text → Prop
  | done : Retained ops [] []
  | keep (c : Char) (cs kept : Text) : c ≠ 'X' → c ≠ 'Y' → Retained ops cs kept →
      Retained ops (c :: cs) (c :: kept)
  | coordinate (c : Char) (cs kept : Text) : c = 'X' ∨ c = 'Y' → (ops.read cs).fail = false →
      Retained ops (cs.drop (ops.read cs).consumed) kept → Retained ops (c :: cs) kept

/-- Nozzle offsets (0,0) for every tool but tool 1, whose offset is (1,2). -/
def offsets01 : Int → Vec2 Exact :=
  fun t => if t = 1 then { x := Exact.ofInt 1, y := Exact.ofInt 2 } else zero2

/-- The loop state on entry of `post_process_wipe_tower_moves`. -/
def initial_state {F D E : Type} (ops : FloatOps F) (offsets : Int → Vec2 F)
    (tcr : ToolChangeResult F D E) (translation : Vec2 F) (angle : F) : LoopState F :=
  { gcode_out := []
    line := []
    pos := tcr.start_pos
    transformed_pos := rotate_translate ops angle translation tcr.start_pos
    old_pos := { x := ops.old_pos_init, y := ops.old_pos_init }
    extruder_offset := offsets tcr.initial_tool }

/-- The claim's reading of the travel decision of `append_tcr`, evaluated where
the code evaluates it, behind the initial `travel_to_z(current_z)`: the result
forces the travel, or no tool change is needed for the requested tool, or the
printer is single-extruder multi-material, or ramming is enabled for the
initial tool, or the target height is not the current one. -/
def travel_required {F D E G : Type} (dops : DoubleOps F D) (gen : Generator G F D)
    (tcr : ToolChangeResult F D E) (new_extruder_id : Int) (z : D) (g : G) : Bool :=
  tcr.force_travel
    || !gen.writer_need_toolchange
        (gen.writer_travel_to_z (gen.writer_get_position g).z [] g).2 new_extruder_id
    || (gen.config
        (gen.writer_travel_to_z (gen.writer_get_position g).z [] g).2).single_extruder_multi_material
    || (gen.config
        (gen.writer_travel_to_z (gen.writer_get_position g).z [] g).2).filament_multitool_ramming
          tcr.initial_tool
    || !dops.is_approx (target_z dops z (gen.writer_get_position g).z) (gen.writer_get_position g).z

/-- Lines 113 and 114: the acceleration override, requested from the writer
only under `default_acceleration > 0`. -/
def acceleration_override {F D G : Type} (dops : DoubleOps F D) (gen : Generator G F D) (g : G) :
    Text × G :=
  if dops.gt_zero (gen.config g).default_acceleration then
    gen.writer_set_print_acceleration
      (dops.fast_round_up (gen.config g).wipe_tower_acceleration) g
  else ([], g)

/-- The writer operation `travel_to_z` that emits nothing for a move to the
height the writer is already at. -/
def quiet_travel_to_z (z : Exact) (c : Text) (g : Recorder) : Text × Recorder :=
  if exactDops.is_approx z g.position.z then
    ([], { g with calls := g.calls ++ [Call.writer_travel_to_z c] })
  else
    ("G1 Z\n".toList,
      { g with
        calls := g.calls ++ [Call.writer_travel_to_z c]
        position := { g.position with z := z } })

/-- The recording generator with the quiet `travel_to_z`. -/
def quietGen (cfg : PrintConfig Exact) : Generator Recorder Exact Exact :=
  { recGen cfg with writer_travel_to_z := quiet_travel_to_z }

deriving instance DecidableEq for Except

/-! ## Theorems -/

section Rewriter

variable {F : Type}

theorem tokenize_output (ops : FloatOps F) (c : Char) (hc : c = 'X' ∨ c = 'Y') :
    ∀ (cs : Text) (skip : Nat) (pos : Vec2 F) (line_out : Text),
      c ∉ line_out → c ∉ (tokenize ops cs skip pos line_out).2 := by
  intro cs
  induction cs with
  | nil => intro skip pos line_out h; simpa [tokenize] using h
  | cons ch cs ih =>
    intro skip pos line_out h
    cases skip with
    | succ k => simpa [tokenize] using ih k pos line_out h
    | zero =>
      unfold tokenize
      split_ifs with h1 h2 h3 h4
      · exact h
      · exact ih _ _ _ h
      · exact h
      · exact ih _ _ _ h
      · apply ih
        intro hmem
        rcases List.mem_append.1 hmem with hm | hm
        · exact h hm
        · have : c = ch := by simpa using hm
          rcases hc with hc | hc
          · exact h1 (this ▸ hc)
          · exact h3 (this ▸ hc)

theorem mem_of_mem_trim {c : Char} {s : Text} (h : c ∈ trim s) : c ∈ s := by
  unfold trim at h
  have h1 := List.mem_reverse.1 h
  have h2 := (List.dropWhile_sublist is_space).subset h1
  have h3 := List.mem_reverse.1 h2
  exact (List.dropWhile_sublist is_space).subset h3

/-- The remaining tokens of a `G1` line hold neither an `X` nor a `Y`. -/
theorem G1_rest_no_coordinate (ops : FloatOps F) (tag : Text) (pos : Vec2 F) (line : Text)
    (c : Char) (hc : c = 'X' ∨ c = 'Y') : c ∉ G1_rest ops tag pos line := by
  intro h
  exact tokenize_output ops c hc _ 0 pos [] (List.not_mem_nil c) (mem_of_mem_trim h)

theorem toolchange_tag_head : toolchange_tag.head? = some '[' := by decide

theorem G1_text_ne_tag (ops : FloatOps F) (ns : Bool) (t o off : Vec2 F) (rest : Text) :
    G1_text ops ns t o off rest ≠ toolchange_tag := by
  intro h
  have h1 := congrArg List.head? h
  rw [toolchange_tag_head] at h1
  simp [G1_text] at h1

/-- The line a `G1` line is rewritten to is never the tool-change tag. -/
theorem rewrite_G1_line_ne_tag (ops : FloatOps F) (tag : Text) (translation : Vec2 F) (angle : F)
    (st : LoopState F) :
    (rewrite_G1 ops tag translation angle st).line ≠ toolchange_tag := by
  unfold rewrite_G1
  simp only
  split_ifs with h
  · exact G1_text_ne_tag ops _ _ _ _ _
  · simp only [Bool.or_eq_true, not_or, Bool.not_eq_true, Bool.not_eq_true', Bool.not_eq_false] at h
    intro h2
    have h3 := h.2
    simp only at h2
    rw [h2] at h3
    simp [toolchange_tag] at h3

theorem emit_line_of_ne_tag (ops : FloatOps F) (offsets : Int → Vec2 F) (it nt : Int)
    (st : LoopState F) (h : st.line ≠ toolchange_tag) :
    emit_line ops offsets it nt st
      = { st with gcode_out := st.gcode_out ++ st.line ++ "\n".toList } := by
  unfold emit_line
  simp only [h, if_false]

/-- A `G1` line goes through the rewriting branch and is appended to the
output; nothing else changes. -/
theorem process_line_G1 (ops : FloatOps F) (tag : Text) (offsets : Int → Vec2 F) (it nt : Int)
    (translation : Vec2 F) (angle : F) (st : LoopState F) (l : Text)
    (h : starts_with l "G1 ".toList = true) :
    process_line ops tag offsets it nt translation angle st l
      = { rewrite_G1 ops tag translation angle { st with line := l } with
          gcode_out := st.gcode_out
            ++ (rewrite_G1 ops tag translation angle { st with line := l }).line
            ++ "\n".toList } := by
  unfold process_line loop_body
  simp only [h, if_true]
  rw [emit_line_of_ne_tag _ _ _ _ _ (rewrite_G1_line_ne_tag ops tag translation angle _)]
  have : (rewrite_G1 ops tag translation angle { st with line := l }).gcode_out = st.gcode_out := by
    unfold rewrite_G1
    simp only
    split_ifs <;> rfl
  rw [this]

/-- After a `G1` line, whatever compares equal to the transformed position
compares equal to `old_pos`: either the line was emitted and `old_pos` is the
transformed position, or it was not because the two already compared equal. -/
theorem rewrite_G1_old_pos (ops : FloatOps F) (tag : Text) (translation : Vec2 F) (angle : F)
    (st : LoopState F) (v : F) :
    (ops.ne v (rewrite_G1 ops tag translation angle st).transformed_pos.x = false →
      ops.ne v (rewrite_G1 ops tag translation angle st).old_pos.x = false)
    ∧ (ops.ne v (rewrite_G1 ops tag translation angle st).transformed_pos.y = false →
      ops.ne v (rewrite_G1 ops tag translation angle st).old_pos.y = false) := by
  unfold rewrite_G1
  simp only
  split_ifs with h
  · exact ⟨fun a => a, fun a => a⟩
  · simp only [Bool.or_eq_true, not_or, Bool.not_eq_true, Vec2.ne, Bool.or_eq_false_iff] at h
    exact ⟨fun a => ops.ne_trans _ _ _ a h.1.1.1, fun a => ops.ne_trans _ _ _ a h.1.1.2⟩

/-- A `G1` line without the tag whose transformed position compares equal to
`old_pos` is rewritten without coordinates. -/
theorem rewrite_G1_unchanged (ops : FloatOps F) (tag : Text) (translation : Vec2 F) (angle : F)
    (st : LoopState F) (hno : find st.line tag = none)
    (hx : ops.ne (rewrite_G1 ops tag translation angle st).transformed_pos.x st.old_pos.x = false)
    (hy : ops.ne (rewrite_G1 ops tag translation angle st).transformed_pos.y st.old_pos.y = false) :
    (rewrite_G1 ops tag translation angle st).line
      = if G1_rest ops tag st.pos st.line = [] then []
        else "G1 ".toList ++ G1_rest ops tag st.pos st.line := by
  have ht : (rewrite_G1 ops tag translation angle st).transformed_pos
      = rotate_translate ops angle translation (G1_pos ops tag st.pos st.line) := by
    unfold rewrite_G1
    simp only
    split_ifs <;> rfl
  rw [ht] at hx hy
  unfold rewrite_G1
  simp only [hno, Option.isSome_none, Vec2.ne, hx, hy, Bool.or_self, Bool.or_false,
    Bool.false_or]
  by_cases hr : G1_rest ops tag st.pos st.line = []
  · simp [hr]
  · have : (G1_rest ops tag st.pos st.line).isEmpty = false := by
      cases hq : G1_rest ops tag st.pos st.line with
      | nil => exact absurd hq hr
      | cons a b => rfl
    simp [hr, this, G1_text, hx, hy]

/-- A `G1` line that carries the tag is rewritten with both coordinates. -/
theorem rewrite_G1_never_skip (ops : FloatOps F) (tag : Text) (translation : Vec2 F) (angle : F)
    (st : LoopState F) (i : Nat) (hfind : find st.line tag = some i) :
    (rewrite_G1 ops tag translation angle st).line
      = "G1 X".toList
        ++ ops.fixed3 (ops.sub
            (rotate_translate ops angle translation (G1_pos ops tag st.pos st.line)).x
            st.extruder_offset.x)
        ++ " Y".toList
        ++ ops.fixed3 (ops.sub
            (rotate_translate ops angle translation (G1_pos ops tag st.pos st.line)).y
            st.extruder_offset.y)
        ++ (if G1_rest ops tag st.pos st.line = [] then []
            else ' ' :: G1_rest ops tag st.pos st.line) := by
  unfold rewrite_G1
  simp only [hfind, Option.isSome_some, Bool.or_true, Bool.true_or, if_true, G1_text]
  by_cases hr : G1_rest ops tag st.pos st.line = []
  · simp [hr]
  · have : (G1_rest ops tag st.pos st.line).isEmpty = false := by
      cases hq : G1_rest ops tag st.pos st.line with
      | nil => exact absurd hq hr
      | cons a b => rfl
    simp [hr, this]

theorem erase_never_skip_at_end (tag a : Text) (h : find (a ++ tag) tag = some a.length) :
    erase_never_skip tag (a ++ tag) = a := by
  unfold erase_never_skip erase
  simp only [h]
  rw [List.take_left, List.drop_eq_nil_of_le (by simp), List.append_nil]


theorem split_lines_ne_nil : ∀ s : Text, split_lines s ≠ [] := by
  intro s
  induction s with
  | nil => simp [split_lines]
  | cons c cs ih =>
    unfold split_lines
    split_ifs
    · simp
    · split <;> simp

theorem split_lines_cons (c : Char) (cs : Text) :
    split_lines (c :: cs)
      = if c = '\n' then [] :: split_lines cs
        else match split_lines cs with
          | [] => [[c]]
          | l :: ls => (c :: l) :: ls := by
  rw [split_lines]

theorem read_line_cons (c : Char) (cs : Text) :
    read_line (c :: cs)
      = if c = '\n' then ([], cs, true)
        else ((c :: (read_line cs).1), (read_line cs).2.1, (read_line cs).2.2) := by
  rw [read_line]

theorem read_line_length : ∀ s : Text, (read_line s).2.1.length ≤ s.length := by
  intro s
  induction s with
  | nil => simp [read_line]
  | cons c cs ih =>
    rw [read_line_cons]
    split_ifs
    · simp
    · simp only [List.length_cons]
      omega

/-- When a line feed is found, `std::getline` delivers the first piece of the
text and leaves the text behind the line feed, which holds the other
pieces. -/
theorem split_lines_of_found : ∀ s : Text, (read_line s).2.2 = true →
    split_lines s = (read_line s).1 :: split_lines (read_line s).2.1 := by
  intro s
  induction s with
  | nil => simp [read_line]
  | cons c cs ih =>
    intro h
    rw [read_line_cons] at h ⊢
    rw [split_lines_cons]
    split_ifs with hc
    · rfl
    · simp only [hc, if_false] at h
      rw [ih h]

/-- Without a line feed the text is its only piece. -/
theorem split_lines_of_not_found : ∀ s : Text, (read_line s).2.2 = false →
    split_lines s = [(read_line s).1] := by
  intro s
  induction s with
  | nil => intro _; rfl
  | cons c cs ih =>
    intro h
    rw [read_line_cons] at h ⊢
    rw [split_lines_cons]
    split_ifs with hc
    · simp [hc] at h
    · simp only [hc, if_false] at h
      rw [ih h]

theorem while_loop_failed (body : LoopState F → LoopState F) (n : Nat) (buf : Text)
    (e : Bool) (st : LoopState F) :
    while_loop body n { buf := buf, eofbit := e, failbit := true } st = st := by
  cases n <;> simp [while_loop]

/-- With at least `buf.length + 2` iterations allowed the loop is ended by
`failbit`, and it has run the body on the pieces of the text as `run_lines`
says. -/
theorem while_loop_eq_run_lines (body : LoopState F → LoopState F) :
    ∀ (n : Nat) (buf : Text) (st : LoopState F), buf.length + 2 ≤ n →
      while_loop body n { buf := buf, eofbit := false, failbit := false } st
        = run_lines body (split_lines buf) st := by
  intro n
  induction n with
  | zero => intro buf st h; omega
  | succ n ih =>
    intro buf st h
    unfold while_loop
    simp only [Bool.false_eq_true, if_false, getline, Bool.or_self]
    by_cases hf : (read_line buf).2.2 = true
    · simp only [hf, if_true]
      have hlen := read_line_length buf
      cases hb : buf with
      | nil => rw [hb] at hf; simp [read_line] at hf
      | cons c cs =>
        rw [← hb]
        have hlt : (read_line buf).2.1.length < buf.length := by
          rw [hb]
          rw [hb] at hf
          rw [read_line_cons] at hf ⊢
          have := read_line_length cs
          split_ifs with hc
          · simp
          · simp only [hc, if_false] at hf
            simp only [List.length_cons]
            omega
        rw [ih _ _ (by omega), split_lines_of_found buf hf]
        cases hs : split_lines (read_line buf).2.1 with
        | nil => exact absurd hs (split_lines_ne_nil _)
        | cons l2 ls => rfl
    · have hf2 : (read_line buf).2.2 = false := by simpa using hf
      simp only [hf2, Bool.false_eq_true, if_false]
      rw [split_lines_of_not_found buf hf2]
      by_cases he : (read_line buf).1 = []
      · simp only [he, List.isEmpty_nil, run_lines, if_true]
        exact while_loop_failed body n [] true _
      · have hne : (read_line buf).1.isEmpty = false := by
          cases hq : (read_line buf).1 with
          | nil => exact absurd hq he
          | cons a b => rfl
        simp only [hne, run_lines, he, if_false]
        cases n with
        | zero => omega
        | succ k =>
          unfold while_loop
          simp only [Bool.false_eq_true, if_false, getline, Bool.true_or, if_true]
          exact while_loop_failed body k [] true _

/-- The rewriter runs its loop body on the pieces of the block, in order; the
iteration bound of `post_process_wipe_tower_moves` is never what stops it. -/
theorem post_process_eq_run_lines {D E : Type} (ops : FloatOps F) (tag : Text)
    (offsets : Int → Vec2 F) (tcr : ToolChangeResult F D E) (translation : Vec2 F) (angle : F) :
    post_process_wipe_tower_moves ops tag offsets tcr translation angle
      = (run_lines
          (loop_body ops tag offsets tcr.initial_tool tcr.new_tool translation angle)
          (split_lines tcr.gcode)
          { gcode_out := []
            line := []
            pos := tcr.start_pos
            transformed_pos := rotate_translate ops angle translation tcr.start_pos
            old_pos := { x := ops.old_pos_init, y := ops.old_pos_init }
            extruder_offset := offsets tcr.initial_tool }).gcode_out := by
  unfold post_process_wipe_tower_moves
  rw [while_loop_eq_run_lines _ _ _ _ (le_refl _)]

/-- C2, as stated, fails: on the scenario block (rotation 0, translation
(0,0), zero nozzle offsets) the rewriter does not return the text the scenario
names.  The numbers 10, 20 and 0 are exact in `float`, so exact arithmetic
computes what the code computes. -/
theorem scenario_output_differs :
    post_process_wipe_tower_moves exactOps upstream_never_skip_tag (fun _ => zero2)
        (tcr0 scenario_block) zero2 (Exact.ofInt 0)
      ≠ "G1 X10.000 Y10.000\nG1\nG1 X20.000 Y10.000\n".toList := by
  decide!

/-- The whole output of the scenario: the second line is rewritten to an empty
line, and an empty line follows the last one. -/
theorem scenario_output :
    post_process_wipe_tower_moves exactOps upstream_never_skip_tag (fun _ => zero2)
        (tcr0 scenario_block) zero2 (Exact.ofInt 0)
      = "G1 X10.000 Y10.000\n\nG1 X20.000 Y10.000\n\n".toList := by
  decide!

/-- C2, amended. On the scenario block, with rotation 0, translation (0,0) and
zero nozzle offsets, the three input lines are rewritten to
`G1 X10.000 Y10.000`, the empty line and `G1 X20.000 Y10.000`: the output
starts with these three lines, each ended by a line feed. -/
theorem scenario_lines :
    ∃ rest, post_process_wipe_tower_moves exactOps upstream_never_skip_tag (fun _ => zero2)
        (tcr0 scenario_block) zero2 (Exact.ofInt 0)
      = "G1 X10.000 Y10.000\n\nG1 X20.000 Y10.000\n".toList ++ rest :=
  ⟨"\n".toList, by decide!⟩


/-- C3. Deduplication: when two consecutive `G1` lines are processed, the
second one carries no never-skip tag and its transformed coordinates compare
equal to those of the first, the line written for the second holds neither an
`X` nor a `Y` (it is empty, or `G1` followed by the remaining tokens), whether
or not the first line was itself emitted with coordinates. -/
theorem dedup_second_line (ops : FloatOps F) (tag : Text) (offsets : Int → Vec2 F)
    (it nt : Int) (translation : Vec2 F) (angle : F) (st s1 s2 : LoopState F) (l1 l2 : Text)
    (hs1 : s1 = process_line ops tag offsets it nt translation angle st l1)
    (hs2 : s2 = process_line ops tag offsets it nt translation angle s1 l2)
    (h1 : starts_with l1 "G1 ".toList = true) (h2 : starts_with l2 "G1 ".toList = true)
    (hno : find l2 tag = none)
    (hx : ops.ne s2.transformed_pos.x s1.transformed_pos.x = false)
    (hy : ops.ne s2.transformed_pos.y s1.transformed_pos.y = false) :
    'X' ∉ s2.line ∧ 'Y' ∉ s2.line
    ∧ s2.line = (if G1_rest ops tag s1.pos l2 = [] then []
        else "G1 ".toList ++ G1_rest ops tag s1.pos l2)
    ∧ s2.gcode_out = s1.gcode_out ++ s2.line ++ "\n".toList := by
  rw [process_line_G1 ops tag offsets it nt translation angle st l1 h1] at hs1
  rw [process_line_G1 ops tag offsets it nt translation angle s1 l2 h2] at hs2
  have e1 : s1.transformed_pos
      = (rewrite_G1 ops tag translation angle { st with line := l1 }).transformed_pos := by
    rw [hs1]
  have e2 : s1.old_pos
      = (rewrite_G1 ops tag translation angle { st with line := l1 }).old_pos := by
    rw [hs1]
  have e3 : s2.transformed_pos
      = (rewrite_G1 ops tag translation angle { s1 with line := l2 }).transformed_pos := by
    rw [hs2]
  have e4 : s2.line = (rewrite_G1 ops tag translation angle { s1 with line := l2 }).line := by
    rw [hs2]
  have e5 : s2.gcode_out = s1.gcode_out ++ s2.line ++ "\n".toList := by
    rw [e4, hs2]
  rw [e1, e3] at hx hy
  have ox := (rewrite_G1_old_pos ops tag translation angle { st with line := l1 } _).1 hx
  have oy := (rewrite_G1_old_pos ops tag translation angle { st with line := l1 } _).2 hy
  rw [← e2] at ox oy
  have hline := rewrite_G1_unchanged ops tag translation angle { s1 with line := l2 } hno ox oy
  rw [← e4] at hline
  simp only at hline
  have hnoc : ∀ c : Char, c = 'X' ∨ c = 'Y' → c ∉ s2.line := by
    intro c hc
    rw [hline]
    split_ifs with hr
    · exact List.not_mem_nil c
    · intro hmem
      rcases List.mem_append.1 hmem with hm | hm
      · rcases hc with hc | hc <;> subst hc <;> revert hm <;> decide
      · exact G1_rest_no_coordinate ops tag s1.pos l2 c hc hm
  exact ⟨hnoc _ (Or.inl rfl), hnoc _ (Or.inr rfl), hline, e5⟩

/-- C3, witness: after `G1 X10.000 Y10.000` the line `G1 X10.000 Y10.000 E1.5`
is written as `G1 E1.5`. -/
theorem dedup_second_line_witness :
    (process_line exactOps upstream_never_skip_tag (fun _ => zero2) 0 1 zero2 (Exact.ofInt 0)
        (process_line exactOps upstream_never_skip_tag (fun _ => zero2) 0 1 zero2 (Exact.ofInt 0)
          loop0 "G1 X10.000 Y10.000".toList)
        "G1 X10.000 Y10.000 E1.5".toList).line = "G1 E1.5".toList
    ∧ 'X' ∉ (process_line exactOps upstream_never_skip_tag (fun _ => zero2) 0 1 zero2
        (Exact.ofInt 0)
        (process_line exactOps upstream_never_skip_tag (fun _ => zero2) 0 1 zero2 (Exact.ofInt 0)
          loop0 "G1 X10.000 Y10.000".toList)
        "G1 X10.000 Y10.000 E1.5".toList).line :=
  ⟨by decide!,
    (dedup_second_line exactOps upstream_never_skip_tag (fun _ => zero2) 0 1 zero2 (Exact.ofInt 0)
      loop0 _ _ "G1 X10.000 Y10.000".toList "G1 X10.000 Y10.000 E1.5".toList rfl rfl
      (by decide!) (by decide!) (by decide!) (by decide!) (by decide!)).1⟩


/-- C4, as stated, fails: a `G1` line that carries the never-skip tag twice,
six blanks apart, is rewritten to a line that still holds the tag. -/
theorem never_skip_tag_survives :
    (process_line exactOps upstream_never_skip_tag (fun _ => zero2) 0 1 zero2 (Exact.ofInt 0)
        loop0
        ("G1 X5 ".toList ++ upstream_never_skip_tag ++ "      ".toList
          ++ upstream_never_skip_tag)).line
      = "G1 X5.000 Y0.000 ".toList ++ upstream_never_skip_tag
    ∧ find ("G1 X5.000 Y0.000 ".toList ++ upstream_never_skip_tag) upstream_never_skip_tag
      = some 17 := by
  decide!

/-- C4, amended. A `G1` line that carries the never-skip tag is rewritten to
`G1 X<x> Y<y>`, with the transformed position less the extruder offset,
followed when other tokens remain by a blank and those tokens, none of which
holds an `X` or a `Y`; this does not depend on `old_pos`, so both coordinates
are written also when they equal those of the preceding motion line.  The tag
is cut out at its first occurrence before the line is tokenized: when that
occurrence ends the line, the line tokenized is the text before the tag. -/
theorem never_skip_line (ops : FloatOps F) (tag : Text) (offsets : Int → Vec2 F)
    (it nt : Int) (translation : Vec2 F) (angle : F) (st s1 : LoopState F) (l : Text) (i : Nat)
    (hs1 : s1 = process_line ops tag offsets it nt translation angle st l)
    (h : starts_with l "G1 ".toList = true) (hfind : find l tag = some i) :
    s1.line = "G1 X".toList
        ++ ops.fixed3 (ops.sub s1.transformed_pos.x st.extruder_offset.x)
        ++ " Y".toList
        ++ ops.fixed3 (ops.sub s1.transformed_pos.y st.extruder_offset.y)
        ++ (if G1_rest ops tag st.pos l = [] then [] else ' ' :: G1_rest ops tag st.pos l)
    ∧ s1.transformed_pos = rotate_translate ops angle translation (G1_pos ops tag st.pos l)
    ∧ 'X' ∉ G1_rest ops tag st.pos l ∧ 'Y' ∉ G1_rest ops tag st.pos l
    ∧ s1.gcode_out = st.gcode_out ++ s1.line ++ "\n".toList
    ∧ ∀ a, l = a ++ tag → i = a.length → erase_never_skip tag l = a := by
  rw [process_line_G1 ops tag offsets it nt translation angle st l h] at hs1
  have ht : s1.transformed_pos
      = rotate_translate ops angle translation (G1_pos ops tag st.pos l) := by
    rw [hs1]
    unfold rewrite_G1
    simp only
    split_ifs <;> rfl
  have hl : s1.line = (rewrite_G1 ops tag translation angle { st with line := l }).line := by
    rw [hs1]
  have hg : s1.gcode_out = st.gcode_out ++ s1.line ++ "\n".toList := by
    rw [hl, hs1]
  refine ⟨?_, ht, G1_rest_no_coordinate ops tag st.pos l _ (Or.inl rfl),
    G1_rest_no_coordinate ops tag st.pos l _ (Or.inr rfl), hg, ?_⟩
  · rw [hl, ht]
    exact rewrite_G1_never_skip ops tag translation angle { st with line := l } i hfind
  · intro a ha hi
    subst ha
    subst hi
    exact erase_never_skip_at_end tag a hfind


/-- C4, witness: after `G1 X10.000 Y10.000` the same coordinates with the tag
at the end of the line are written again. -/
theorem never_skip_line_witness :
    (process_line exactOps upstream_never_skip_tag (fun _ => zero2) 0 1 zero2 (Exact.ofInt 0)
        (process_line exactOps upstream_never_skip_tag (fun _ => zero2) 0 1 zero2 (Exact.ofInt 0)
          loop0 "G1 X10.000 Y10.000".toList)
        "G1 X10.000 Y10.000 E1.5 _GCODE_WIPE_TOWER_NEVER_SKIP_TAG".toList).line
      = "G1 X10.000 Y10.000 E1.5".toList
    ∧ erase_never_skip upstream_never_skip_tag
        "G1 X10.000 Y10.000 E1.5 _GCODE_WIPE_TOWER_NEVER_SKIP_TAG".toList
      = "G1 X10.000 Y10.000 E1.5 ".toList :=
  ⟨by decide!,
    (never_skip_line exactOps upstream_never_skip_tag (fun _ => zero2) 0 1 zero2 (Exact.ofInt 0)
      (process_line exactOps upstream_never_skip_tag (fun _ => zero2) 0 1 zero2 (Exact.ofInt 0)
          loop0 "G1 X10.000 Y10.000".toList)
      _ "G1 X10.000 Y10.000 E1.5 _GCODE_WIPE_TOWER_NEVER_SKIP_TAG".toList 24 rfl
      (by decide!) (by decide!)).2.2.2.2.2 "G1 X10.000 Y10.000 E1.5 ".toList (by decide!)
      (by decide!)⟩


/-- C5. Offset correction on tool switch: processing a line that is exactly
the tool-change tag appends the tag line and then, when the offset of the new
tool differs from the offset of the initial tool, exactly the one line
`G1 X<x> Y<y>` with the last transformed position less the new offset, written
with three decimals; when the two offsets compare equal nothing is appended
after the tag line.  The current offset becomes that of the new tool. -/
theorem toolchange_tag_line (ops : FloatOps F) (tag : Text) (offsets : Int → Vec2 F)
    (it nt : Int) (translation : Vec2 F) (angle : F) (st : LoopState F) :
    (process_line ops tag offsets it nt translation angle st toolchange_tag).gcode_out
      = st.gcode_out ++ toolchange_tag ++ "\n".toList
        ++ (if Vec2.ne ops (offsets nt) (offsets it) then
              "G1 X".toList ++ ops.fixed3 (ops.sub st.transformed_pos.x (offsets nt).x)
                ++ " Y".toList ++ ops.fixed3 (ops.sub st.transformed_pos.y (offsets nt).y)
                ++ "\n".toList
            else [])
    ∧ (process_line ops tag offsets it nt translation angle st toolchange_tag).extruder_offset
      = offsets nt
    ∧ (process_line ops tag offsets it nt translation angle st toolchange_tag).transformed_pos
      = st.transformed_pos := by
  have hs : starts_with toolchange_tag "G1 ".toList = false := by decide
  unfold process_line loop_body emit_line
  simp only [hs, Bool.false_eq_true, if_false, if_true]
  split_ifs with h
  · simp
  · simp

/-- A block with a tag line between two moves, tool offsets (0,0) and (1,2):
the move after the tag line is synthesized and later coordinates are corrected
by the new offset. -/
theorem toolchange_tag_line_example :
    post_process_wipe_tower_moves exactOps upstream_never_skip_tag
        (fun t => if t = 1 then { x := Exact.ofInt 1, y := Exact.ofInt 2 } else zero2)
        (tcr0 "G1 X10 Y10\n[toolchange_gcode_from_wipe_tower_generator]\nG1 X20\n".toList)
        zero2 (Exact.ofInt 0)
      = ("G1 X10.000 Y10.000\n[toolchange_gcode_from_wipe_tower_generator]\n"
          ++ "G1 X9.000 Y8.000\nG1 X19.000\n\n").toList := by
  decide!

/-- A `replace_first` whose search text is first found right behind `a`. -/
theorem replace_first_at (a t r f : Text) (ht : t ≠ [])
    (h : find (a ++ t ++ r) t = some a.length) :
    replace_first (a ++ t ++ r) t f = a ++ f ++ r := by
  unfold replace_first
  simp only [ht, if_false, h]
  rw [List.append_assoc a t r, List.take_left, ← List.append_assoc a t r, ← List.length_append,
    List.drop_left]

theorem toolchange_tag_ne_nil : toolchange_tag ≠ [] := by decide

/-- C6, as stated, fails: a contour block that holds the tag (here in a
comment) attracts the second substitution; the new-tool block lands inside the
contour block and the second tag of the template stays. -/
theorem substitution_hits_contour_block :
    replace_first
        (replace_first
          ([] ++ toolchange_tag ++ "\n".toList ++ toolchange_tag ++ "\n".toList)
          toolchange_tag ("T0 ; ".toList ++ toolchange_tag))
        toolchange_tag "T1".toList
      = "T0 ; T1\n".toList ++ toolchange_tag ++ "\n".toList
    ∧ replace_first
        (replace_first
          ([] ++ toolchange_tag ++ "\n".toList ++ toolchange_tag ++ "\n".toList)
          toolchange_tag ("T0 ; ".toList ++ toolchange_tag))
        toolchange_tag "T1".toList
      ≠ [] ++ ("T0 ; ".toList ++ toolchange_tag) ++ "\n".toList ++ "T1".toList ++ "\n".toList := by
  decide!

/-- C6, amended. For a template `a ++ TAG ++ b ++ TAG ++ c` whose first
occurrence of the tool-change tag is the one behind `a`, and a contour block
that brings no earlier occurrence of the tag (in `a ++ contour ++ b ++ TAG ++ c`
the tag is first found behind `b`), the two `replace_first` yield
`a ++ contour ++ b ++ newTool ++ c`, whatever the new-tool block holds; the
de-retraction substitution then runs over that text. -/
theorem toolchange_tag_substitution (a b c contour inner : Text)
    (h1 : find (a ++ toolchange_tag ++ b ++ toolchange_tag ++ c) toolchange_tag
      = some a.length)
    (h2 : find (a ++ contour ++ b ++ toolchange_tag ++ c) toolchange_tag
      = some (a ++ contour ++ b).length) :
    replace_first
        (replace_first (a ++ toolchange_tag ++ b ++ toolchange_tag ++ c) toolchange_tag contour)
        toolchange_tag inner
      = a ++ contour ++ b ++ inner ++ c
    ∧ ∀ deretraction, insert_sub_blocks (a ++ toolchange_tag ++ b ++ toolchange_tag ++ c)
          contour inner deretraction
        = replace_all (a ++ contour ++ b ++ inner ++ c) deretraction_tag deretraction := by
  have e1 : replace_first (a ++ toolchange_tag ++ b ++ toolchange_tag ++ c) toolchange_tag contour
      = a ++ contour ++ b ++ toolchange_tag ++ c := by
    have := replace_first_at a toolchange_tag (b ++ toolchange_tag ++ c) contour
      toolchange_tag_ne_nil (by simpa [List.append_assoc] using h1)
    simpa [List.append_assoc] using this
  have e2 : replace_first (a ++ contour ++ b ++ toolchange_tag ++ c) toolchange_tag inner
      = a ++ contour ++ b ++ inner ++ c :=
    replace_first_at (a ++ contour ++ b) toolchange_tag c inner toolchange_tag_ne_nil h2
  refine ⟨by rw [e1, e2], fun d => ?_⟩
  unfold insert_sub_blocks
  rw [e1, e2]

/-- C6, witness: a template with two tag lines, the blocks `T0` and `T1`. -/
theorem toolchange_tag_substitution_witness :
    replace_first
        (replace_first
          ("M220 S100\n".toList ++ toolchange_tag ++ "\n".toList ++ toolchange_tag ++ "\n".toList)
          toolchange_tag "T0".toList)
        toolchange_tag "T1".toList
      = "M220 S100\n".toList ++ "T0".toList ++ "\n".toList ++ "T1".toList ++ "\n".toList :=
  (toolchange_tag_substitution "M220 S100\n".toList "\n".toList "\n".toList "T0".toList
    "T1".toList (by decide!) (by decide!)).1

end Rewriter

section Sequencer

variable {F D E G : Type}

theorem int_of_size_le (n : Nat) : int_of_size n ≤ (n : Int) := by
  unfold int_of_size
  omega

theorem int_of_size_small {n : Nat} (h : n < 2 ^ 31) : int_of_size n = (n : Int) := by
  unfold int_of_size
  omega

theorem size_of_int_small {i : Int} (h0 : 0 ≤ i) (h : i < 2 ^ 31) :
    (size_of_int i : Int) = i := by
  unfold size_of_int
  omega

/-- Past the last planned layer `tool_change` does nothing. -/
theorem tool_change_past_last_layer (ops : FloatOps F) (dops : DoubleOps F D)
    (gen : Generator G F D) (tag : Text) (m : Members F D E) (g : G) (extruder_id : Int)
    (finish_layer : Bool) (h : m.m_tool_changes.length ≤ m.m_layer_idx) :
    tool_change ops dops gen tag m g extruder_id finish_layer = (.ok [], m, g) := by
  have h1 : ¬ ((m.m_layer_idx : Int) < int_of_size m.m_tool_changes.length) := by
    have := int_of_size_le m.m_tool_changes.length
    omega
  unfold tool_change
  simp only [h1, if_false, ite_self]

/-- C1. Bounds safety of `tool_change`: in a planned layer whose change cursor
is at or past the end of the layer list, a call that needs a tool change or
finishes the layer throws the `RuntimeError` and leaves members and generator
untouched; no vector is indexed out of range. -/
theorem tool_change_cursor_overflow (ops : FloatOps F) (dops : DoubleOps F D)
    (gen : Generator G F D) (tag : Text) (m : Members F D E) (g : G) (extruder_id : Int)
    (finish_layer : Bool) (layer : List (ToolChangeResult F D E))
    (hneed : (gen.writer_need_toolchange g extruder_id || finish_layer) = true)
    (hsize : m.m_tool_changes.length < 2 ^ 31)
    (hlayer : m.m_tool_changes[m.m_layer_idx]? = some layer)
    (hidx : (layer.length : Int) ≤ m.m_tool_change_idx)
    (hint : m.m_tool_change_idx < 2 ^ 31) :
    tool_change ops dops gen tag m g extruder_id finish_layer = (.error .RuntimeError, m, g) := by
  have hlt : m.m_layer_idx < m.m_tool_changes.length := by
    rcases List.getElem?_eq_some.1 hlayer with ⟨h, _⟩
    exact h
  have h1 : (m.m_layer_idx : Int) < int_of_size m.m_tool_changes.length := by
    rw [int_of_size_small hsize]
    exact_mod_cast hlt
  have h2 : ¬ (size_of_int m.m_tool_change_idx < layer.length) := by
    have := size_of_int_small (le_trans (Int.ofNat_nonneg _) hidx) hint
    omega
  unfold tool_change
  simp only [hneed, h1, if_true, hlayer, h2, not_false_eq_true]

/-- C1, witness: a layer with one planned change and the cursor at 1. -/
theorem tool_change_cursor_overflow_witness :
    tool_change exactOps exactDops (recGen cfg0) upstream_never_skip_tag
      (members0 [[tcr0 []]] 0 1) rec0 1 false
      = (.error .RuntimeError, members0 [[tcr0 []]] 0 1, rec0) :=
  tool_change_cursor_overflow exactOps exactDops (recGen cfg0) upstream_never_skip_tag
    (members0 [[tcr0 []]] 0 1) rec0 1 false [tcr0 []] (by decide) (by decide) rfl
    (by decide) (by decide)

/-- The `InvalidArgument` and the bare `throw` are the only ways `append_tcr`
fails. -/
theorem append_tcr_error (ops : FloatOps F) (dops : DoubleOps F D)
    (gen : Generator G F D) (tag : Text) (m : Members F D E) (g : G)
    (tcr : ToolChangeResult F D E) (new_extruder_id : Int) (z : D) (e : Error)
    (h : (append_tcr ops dops gen tag m g tcr new_extruder_id z).1 = .error e) :
    e = .InvalidArgument ∨ e = .BareThrow := by
  unfold append_tcr at h
  simp only at h
  split_ifs at h
  · left
    injection h with h
    exact h.symm
  · right
    injection h with h
    exact h.symm

/-- No call of `tool_change` indexes `m_tool_changes` or a layer of it past the
end. -/
theorem tool_change_in_range (ops : FloatOps F) (dops : DoubleOps F D)
    (gen : Generator G F D) (tag : Text) (m : Members F D E) (g : G) (extruder_id : Int)
    (finish_layer : Bool) :
    (tool_change ops dops gen tag m g extruder_id finish_layer).1 ≠ .error .OutOfRange := by
  unfold tool_change
  split_ifs with h1 h2
  · have hlt : m.m_layer_idx < m.m_tool_changes.length := by
      have := int_of_size_le m.m_tool_changes.length
      omega
    rw [List.getElem?_eq_getElem hlt]
    simp only
    by_cases h3 : size_of_int m.m_tool_change_idx < (m.m_tool_changes[m.m_layer_idx]).length
    · simp only [h3, not_true_eq_false, if_false]
      rw [List.getElem?_eq_getElem h3]
      simp only
      split
      · simp
      · rename_i e g1 heq
        have := append_tcr_error ops dops gen tag m g _ extruder_id dops.minus_one e
          (by rw [heq])
        intro hc
        injection hc with hc
        subst hc
        rcases this with h | h <;> cases h
    · simp only [h3, not_false_eq_true, if_true]
      simp
  · simp
  · simp

/-- A call that neither needs a tool change nor finishes the layer does
nothing. -/
theorem tool_change_not_needed (ops : FloatOps F) (dops : DoubleOps F D)
    (gen : Generator G F D) (tag : Text) (m : Members F D E) (g : G) (extruder_id : Int)
    (h : gen.writer_need_toolchange g extruder_id = false) :
    tool_change ops dops gen tag m g extruder_id false = (.ok [], m, g) := by
  unfold tool_change
  simp only [h, Bool.or_self, Bool.false_eq_true, if_false]

/-- A requested tool other than the sentinel and other than the planned one
stops `append_tcr` at its first statement. -/
theorem append_tcr_mismatch (ops : FloatOps F) (dops : DoubleOps F D)
    (gen : Generator G F D) (tag : Text) (m : Members F D E) (g : G)
    (tcr : ToolChangeResult F D E) (new_extruder_id : Int) (z : D)
    (h1 : new_extruder_id ≠ -1) (h2 : new_extruder_id ≠ tcr.new_tool) :
    append_tcr ops dops gen tag m g tcr new_extruder_id z = (.error .InvalidArgument, g) := by
  unfold append_tcr
  rw [if_pos ⟨h1, h2⟩]

/-- Past the tool check, `append_tcr` is decided by the three sub-blocks. -/
theorem append_tcr_checked (ops : FloatOps F) (dops : DoubleOps F D)
    (gen : Generator G F D) (tag : Text) (m : Members F D E) (g : G)
    (tcr : ToolChangeResult F D E) (new_extruder_id : Int) (z : D)
    (h : new_extruder_id = -1 ∨ new_extruder_id = tcr.new_tool)
    (hempty :
      (append_tcr_sub_blocks ops dops gen m g tcr new_extruder_id z).contour_toolchange_gcode_str
          = []
        ∨ (append_tcr_sub_blocks ops dops gen m g tcr new_extruder_id z).inner_toolchange_gcode_str
          = []
        ∨ (append_tcr_sub_blocks ops dops gen m g tcr new_extruder_id z).deretraction_str = []) :
    append_tcr ops dops gen tag m g tcr new_extruder_id z
      = (.error .BareThrow,
          (append_tcr_sub_blocks ops dops gen m g tcr new_extruder_id z).state) := by
  have hc : ¬ (new_extruder_id ≠ -1 ∧ new_extruder_id ≠ tcr.new_tool) := by
    rintro ⟨a, b⟩
    rcases h with h | h
    · exact a h
    · exact b h
  have hb : ((append_tcr_sub_blocks ops dops gen m g tcr
        new_extruder_id z).contour_toolchange_gcode_str.isEmpty
      || (append_tcr_sub_blocks ops dops gen m g tcr
        new_extruder_id z).inner_toolchange_gcode_str.isEmpty
      || (append_tcr_sub_blocks ops dops gen m g tcr
        new_extruder_id z).deretraction_str.isEmpty) = true := by
    rcases hempty with h1 | h1 | h1 <;> simp [h1]
  unfold append_tcr_sub_blocks at hb ⊢
  unfold append_tcr
  rw [if_neg hc]
  simp only [hb, if_true]

/-- With the wipe tower disabled the de-retraction text stays empty. -/
theorem sub_blocks_disabled (gen : Generator G F D) (tcr : ToolChangeResult F D E) (z : D) (g : G)
    (h : ∀ g1, (gen.config g1).wipe_tower = false) :
    (sub_blocks gen tcr z g).deretraction_str = [] := by
  unfold sub_blocks
  simp only [h, Bool.false_eq_true, if_false]

/-- C7, as stated, fails: the requested tool `-1` does not match the planned
new tool `1`, and `append_tcr` runs to completion instead of throwing. -/
theorem append_tcr_sentinel_accepted :
    (append_tcr exactOps exactDops (recGen cfg0) upstream_never_skip_tag (members0 [] 0 0)
      rec0 (tcr0 []) (-1) (Exact.ofInt (-1))).1 = .ok "G1 Z\n\nM204\n".toList := by
  decide!

/-- C7, amended. A requested tool that is neither the sentinel `-1` nor the
`new_tool` of the planned change makes `append_tcr` throw `InvalidArgument`
with the generator untouched and no text produced; `tool_change`, once it has
fetched that planned change, throws the same with the generator untouched,
its change cursor already advanced. -/
theorem append_tcr_invalid_argument (ops : FloatOps F) (dops : DoubleOps F D)
    (gen : Generator G F D) (tag : Text) (m : Members F D E) (g : G)
    (tcr : ToolChangeResult F D E) (new_extruder_id : Int) (z : D)
    (h1 : new_extruder_id ≠ -1) (h2 : new_extruder_id ≠ tcr.new_tool) :
    append_tcr ops dops gen tag m g tcr new_extruder_id z = (.error .InvalidArgument, g)
    ∧ ∀ (finish_layer : Bool) (layer : List (ToolChangeResult F D E)),
        (gen.writer_need_toolchange g new_extruder_id || finish_layer) = true →
        (m.m_layer_idx : Int) < int_of_size m.m_tool_changes.length →
        m.m_tool_changes[m.m_layer_idx]? = some layer →
        layer[size_of_int m.m_tool_change_idx]? = some tcr →
        tool_change ops dops gen tag m g new_extruder_id finish_layer
          = (.error .InvalidArgument,
              { m with m_tool_change_idx := m.m_tool_change_idx + 1 }, g) := by
  refine ⟨append_tcr_mismatch ops dops gen tag m g tcr new_extruder_id z h1 h2, ?_⟩
  intro finish_layer layer hneed hlayer hget htcr
  have hlt : size_of_int m.m_tool_change_idx < layer.length := by
    rcases List.getElem?_eq_some.1 htcr with ⟨h, _⟩
    exact h
  unfold tool_change
  simp only [hneed, hlayer, if_true, hget, hlt, not_true_eq_false, if_false, htcr,
    append_tcr_mismatch ops dops gen tag m g tcr new_extruder_id dops.minus_one h1 h2]

/-- C7, witness: tool 2 requested where the plan changes to tool 1. -/
theorem append_tcr_invalid_argument_witness :
    append_tcr exactOps exactDops (recGen cfg0) upstream_never_skip_tag
        (members0 [[tcr0 []]] 0 0) rec0 (tcr0 []) 2 (Exact.ofInt (-1))
      = (.error .InvalidArgument, rec0)
    ∧ ∀ (finish_layer : Bool) (layer : List (ToolChangeResult Exact Exact Unit)),
        ((recGen cfg0).writer_need_toolchange rec0 2 || finish_layer) = true →
        ((members0 [[tcr0 []]] 0 0).m_layer_idx : Int)
          < int_of_size (members0 [[tcr0 []]] 0 0).m_tool_changes.length →
        (members0 [[tcr0 []]] 0 0).m_tool_changes[(members0 [[tcr0 []]] 0 0).m_layer_idx]?
          = some layer →
        layer[size_of_int (members0 [[tcr0 []]] 0 0).m_tool_change_idx]? = some (tcr0 []) →
        tool_change exactOps exactDops (recGen cfg0) upstream_never_skip_tag
            (members0 [[tcr0 []]] 0 0) rec0 2 finish_layer
          = (.error .InvalidArgument,
              { members0 [[tcr0 []]] 0 0 with
                m_tool_change_idx := (members0 [[tcr0 []]] 0 0).m_tool_change_idx + 1 }, rec0) :=
  append_tcr_invalid_argument exactOps exactDops (recGen cfg0) upstream_never_skip_tag
    (members0 [[tcr0 []]] 0 0) rec0 (tcr0 []) 2 (Exact.ofInt (-1)) (by decide) (by decide)

/-- C8, as stated, fails: with an empty plan and `finish_layer` set the layer
cursor 0 is past the end, and `tool_change` returns the empty text. -/
theorem tool_change_layer_overflow_returns :
    (tool_change exactOps exactDops (recGen cfg0) upstream_never_skip_tag
      (members0 [] 0 0) rec0 1 true).1 = .ok [] := by
  decide!

/-- C8, amended. When the layer cursor is at or past the end of the plan,
`tool_change` returns the empty text without error and leaves members and
generator untouched, whether or not a tool change is needed or the layer is
being finished. -/
theorem tool_change_layer_overflow (ops : FloatOps F) (dops : DoubleOps F D)
    (gen : Generator G F D) (tag : Text) (m : Members F D E) (g : G) (extruder_id : Int)
    (finish_layer : Bool) (h : m.m_tool_changes.length ≤ m.m_layer_idx) :
    tool_change ops dops gen tag m g extruder_id finish_layer = (.ok [], m, g) :=
  tool_change_past_last_layer ops dops gen tag m g extruder_id finish_layer h

/-- C8, witness: one planned layer and the layer cursor at 3. -/
theorem tool_change_layer_overflow_witness :
    tool_change exactOps exactDops (recGen cfg0) upstream_never_skip_tag
      (members0 [[tcr0 []]] 3 0) rec0 1 true = (.ok [], members0 [[tcr0 []]] 3 0, rec0) :=
  tool_change_layer_overflow exactOps exactDops (recGen cfg0) upstream_never_skip_tag
    (members0 [[tcr0 []]] 3 0) rec0 1 true (by decide)

/-- C9. Past the tool check, `append_tcr` ends in the bare `throw` and returns
no text when the contour activation text, the new-tool activation text or the
de-retraction text is empty; the de-retraction text is built only under
`config().wipe_tower`, so when the configuration has the wipe tower disabled
every call that passes the tool check ends that way. -/
theorem append_tcr_missing_sub_block (ops : FloatOps F) (dops : DoubleOps F D)
    (gen : Generator G F D) (tag : Text) (m : Members F D E) (g : G)
    (tcr : ToolChangeResult F D E) (new_extruder_id : Int) (z : D)
    (h : new_extruder_id = -1 ∨ new_extruder_id = tcr.new_tool) :
    (((append_tcr_sub_blocks ops dops gen m g tcr new_extruder_id z).contour_toolchange_gcode_str
          = []
        ∨ (append_tcr_sub_blocks ops dops gen m g tcr new_extruder_id z).inner_toolchange_gcode_str
          = []
        ∨ (append_tcr_sub_blocks ops dops gen m g tcr new_extruder_id z).deretraction_str = []) →
      append_tcr ops dops gen tag m g tcr new_extruder_id z
        = (.error .BareThrow, (append_tcr_sub_blocks ops dops gen m g tcr new_extruder_id z).state))
    ∧ ((∀ g1, (gen.config g1).wipe_tower = false) →
      append_tcr ops dops gen tag m g tcr new_extruder_id z
        = (.error .BareThrow,
            (append_tcr_sub_blocks ops dops gen m g tcr new_extruder_id z).state)) := by
  have key : ((append_tcr_sub_blocks ops dops gen m g tcr new_extruder_id z).contour_toolchange_gcode_str
          = []
        ∨ (append_tcr_sub_blocks ops dops gen m g tcr new_extruder_id z).inner_toolchange_gcode_str
          = []
        ∨ (append_tcr_sub_blocks ops dops gen m g tcr new_extruder_id z).deretraction_str = []) →
      append_tcr ops dops gen tag m g tcr new_extruder_id z
        = (.error .BareThrow,
            (append_tcr_sub_blocks ops dops gen m g tcr new_extruder_id z).state) := by
    intro hempty
    exact append_tcr_checked ops dops gen tag m g tcr new_extruder_id z h hempty
  refine ⟨key, fun hoff => key (Or.inr (Or.inr ?_))⟩
  exact sub_blocks_disabled gen tcr _ _ hoff

/-- C9, witness: the planned tool is requested and the configuration has the
wipe tower disabled; the two tool activations have been requested from the
generator and the call ends in the bare `throw`. -/
theorem append_tcr_missing_sub_block_witness :
    ((1 : Int) = -1 ∨ (1 : Int) = (tcr0 []).new_tool)
    ∧ (∀ g1, ((recGen { cfg0 with wipe_tower := false }).config g1).wipe_tower = false)
    ∧ (append_tcr exactOps exactDops (recGen { cfg0 with wipe_tower := false })
        upstream_never_skip_tag (members0 [] 0 0) rec0 (tcr0 []) 1 (Exact.ofInt (-1))).1
      = .error .BareThrow :=
  ⟨Or.inr rfl, fun _ => rfl,
    congrArg Prod.fst
      ((append_tcr_missing_sub_block exactOps exactDops (recGen { cfg0 with wipe_tower := false })
        upstream_never_skip_tag (members0 [] 0 0) rec0 (tcr0 []) 1 (Exact.ofInt (-1))
        (Or.inr rfl)).2 (fun _ => rfl))⟩

/-- C10. A call for which no tool change is needed and `finish_layer` is false
returns the empty text without error and leaves the members (both cursors and
`m_last_wipe_tower_print_z` among them) and the generator untouched, wherever
the cursors stand. -/
theorem tool_change_noop (ops : FloatOps F) (dops : DoubleOps F D)
    (gen : Generator G F D) (tag : Text) (m : Members F D E) (g : G) (extruder_id : Int)
    (h : gen.writer_need_toolchange g extruder_id = false) :
    tool_change ops dops gen tag m g extruder_id false = (.ok [], m, g) :=
  tool_change_not_needed ops dops gen tag m g extruder_id h

/-- C10, witness: the active tool 0 is requested while both cursors stand
past an empty plan. -/
theorem tool_change_noop_witness :
    tool_change exactOps exactDops (recGen cfg0) upstream_never_skip_tag
      (members0 [] 5 7) rec0 0 false = (.ok [], members0 [] 5 7, rec0) :=
  tool_change_noop exactOps exactDops (recGen cfg0) upstream_never_skip_tag
    (members0 [] 5 7) rec0 0 (by decide)

end Sequencer

section Transform

theorem exact_identity_x (c s x y : Exact) (hc : c.num = c.den) (hs : s.num = 0) :
    Exact.ne (Exact.add (Exact.add (Exact.mul c x) (Exact.mul s y)) (Exact.ofInt 0)) x = false := by
  simp only [Exact.ne, Exact.add, Exact.mul, Exact.ofInt, ne_eq, decide_not, Bool.not_eq_false',
    decide_eq_true_eq, hc, hs]
  push_cast
  ring

theorem exact_identity_y (c s x y : Exact) (hc : c.num = c.den) (hs : s.num = 0) :
    Exact.ne (Exact.add (Exact.add (Exact.mul s x) (Exact.mul c y)) (Exact.ofInt 0)) y = false := by
  simp only [Exact.ne, Exact.add, Exact.mul, Exact.ofInt, ne_eq, decide_not, Bool.not_eq_false',
    decide_eq_true_eq, hc, hs]
  push_cast
  ring

/-- C11. Identity transform, in exact arithmetic: with rotation 0 degrees and
translation (0,0) the transform used for `start_pos`, `end_pos` and every
coordinate token, `Eigen::Rotation2Df(0 / 180.f * float(M_PI)) * p + (0,0)`,
compares equal to `p` for every point `p`. -/
theorem identity_transform (p : Vec2 Exact) :
    Vec2.ne exactOps
      (rotate_translate exactOps (exactOps.deg_to_rad (Exact.ofInt 0)) zero2 p) p = false := by
  have hx := exact_identity_x
    (exactOps.cos (exactOps.deg_to_rad (Exact.ofInt 0)))
    (exactOps.neg (exactOps.sin (exactOps.deg_to_rad (Exact.ofInt 0)))) p.x p.y
    (by decide!) (by decide!)
  have hy := exact_identity_y
    (exactOps.cos (exactOps.deg_to_rad (Exact.ofInt 0)))
    (exactOps.sin (exactOps.deg_to_rad (Exact.ofInt 0))) p.x p.y
    (by decide!) (by decide!)
  unfold Vec2.ne rotate_translate rotate
  simp only [Bool.or_eq_false_iff]
  exact ⟨hx, hy⟩

end Transform

section Tokens
variable {F : Type}

theorem tokenize_skip (ops : FloatOps F) :
    ∀ (cs : Text) (k : Nat) (pos : Vec2 F) (out : Text),
      tokenize ops cs k pos out = tokenize ops (cs.drop k) 0 pos out := by
  intro cs
  induction cs with
  | nil => intro k pos out; cases k <;> simp [tokenize]
  | cons c cs ih =>
    intro k pos out
    cases k with
    | zero => rfl
    | succ k => rw [tokenize, List.drop_succ_cons, ih]

/-- On a text in which every `X` and `Y` starts an accepted coordinate the
tokenizer keeps what the claim says. -/
theorem tokenize_retained (ops : FloatOps F) (text kept : Text) (h : Retained ops text kept) :
    ∀ (pos : Vec2 F) (out : Text), (tokenize ops text 0 pos out).2 = out ++ kept := by
  induction h with
  | done => intro pos out; simp [tokenize]
  | keep c cs kept hx hy _ ih =>
    intro pos out
    rw [tokenize]
    simp only [hx, hy, if_false]
    rw [ih]
    simp
  | coordinate c cs kept hc hread _ ih =>
    intro pos out
    rw [tokenize]
    rcases hc with hc | hc
    · subst hc
      simp only [hread, if_true, Bool.false_eq_true, if_false]
      rw [tokenize_skip, ih]
    · subst hc
      have hne : ¬ ('Y' = 'X') := by decide
      simp only [hne, hread, if_true, Bool.false_eq_true, if_false]
      rw [tokenize_skip, ih]

/-- What the tokenizer keeps is taken from the text, in the original order. -/
theorem tokenize_sublist (ops : FloatOps F) :
    ∀ (cs : Text) (k : Nat) (pos : Vec2 F) (out : Text),
      ∃ kept, (tokenize ops cs k pos out).2 = out ++ kept ∧ kept.Sublist cs := by
  intro cs
  induction cs with
  | nil => intro k pos out; exact ⟨[], by simp [tokenize], List.Sublist.refl _⟩
  | cons c cs ih =>
    intro k pos out
    cases k with
    | succ k =>
      rcases ih k pos out with ⟨kept, h1, h2⟩
      exact ⟨kept, by rw [tokenize]; exact h1, h2.cons c⟩
    | zero =>
      rw [tokenize]
      split_ifs with h1 h2 h3 h4
      · exact ⟨[], by simp, List.nil_sublist _⟩
      · rcases ih (ops.read cs).consumed { pos with x := (ops.read cs).value } out
          with ⟨kept, h5, h6⟩
        exact ⟨kept, h5, h6.cons c⟩
      · exact ⟨[], by simp, List.nil_sublist _⟩
      · rcases ih (ops.read cs).consumed { pos with y := (ops.read cs).value } out
          with ⟨kept, h5, h6⟩
        exact ⟨kept, h5, h6.cons c⟩
      · rcases ih 0 pos (out ++ [c]) with ⟨kept, h5, h6⟩
        exact ⟨c :: kept, by rw [h5]; simp, h6.cons₂ c⟩

theorem trim_sublist (s : Text) : (trim s).Sublist s := by
  unfold trim
  have h1 : ((s.dropWhile is_space).reverse.dropWhile is_space).Sublist
      (s.dropWhile is_space).reverse := List.dropWhile_sublist _
  have h2 := h1.reverse
  rw [List.reverse_reverse] at h2
  exact h2.trans (List.dropWhile_sublist _)

/-- The tokens kept of a `G1` line are taken, in order, from the line behind
`G1` with the first occurrence of the tag cut out. -/
theorem G1_rest_sublist (ops : FloatOps F) (tag : Text) (pos : Vec2 F) (line : Text) :
    (G1_rest ops tag pos line).Sublist ((erase_never_skip tag line).drop 2) := by
  unfold G1_rest
  rcases tokenize_sublist ops ((erase_never_skip tag line).drop 2) 0 pos [] with ⟨kept, h1, h2⟩
  rw [h1, List.nil_append]
  exact (trim_sublist kept).trans h2

theorem erase_never_skip_none (tag line : Text) (h : find line tag = none) :
    erase_never_skip tag line = line := by
  unfold erase_never_skip
  rw [h]

/-- A `G1` line is rewritten either to its kept tokens alone or to `G1`, the
coordinates written, and the kept tokens. -/
theorem process_line_G1_line (ops : FloatOps F) (tag : Text) (offsets : Int → Vec2 F)
    (it nt : Int) (translation : Vec2 F) (angle : F) (st : LoopState F) (l : Text)
    (h : starts_with l "G1 ".toList = true) :
    (process_line ops tag offsets it nt translation angle st l).line
      = if Vec2.ne ops (rotate_translate ops angle translation (G1_pos ops tag st.pos l))
            st.old_pos
          || (find l tag).isSome || !(G1_rest ops tag st.pos l).isEmpty then
          G1_text ops (find l tag).isSome
            (rotate_translate ops angle translation (G1_pos ops tag st.pos l))
            st.old_pos st.extruder_offset (G1_rest ops tag st.pos l)
        else G1_rest ops tag st.pos l := by
  rw [process_line_G1 ops tag offsets it nt translation angle st l h]
  simp only
  unfold rewrite_G1
  simp only
  split_ifs <;> rfl

end Tokens

section Retention
variable {F : Type}

/-- C13, as stated, fails: the comment of `G1 X10 F3000 ; next Y move` holds
the letter `Y`; the tokenizer takes it for a coordinate, the extraction of its
number fails on the blank, and the rest of the comment is lost. -/
theorem comment_with_coordinate_letter :
    (process_line exactOps upstream_never_skip_tag (fun _ => zero2) 0 1 zero2 (Exact.ofInt 0)
        loop0 "G1 X10 F3000 ; next Y move".toList).line
      = "G1 X10.000 Y0.000 F3000 ; next".toList := by
  decide!

/-- C13, amended. On every `G1` line the tokens kept are taken verbatim and in
the original order from the line behind `G1`, once the first occurrence of the
never-skip tag is cut out, and they end the rewritten line.  When the line has
no tag, or its first tag ends the line, and every `X` and `Y` on the line
starts a coordinate whose number the extraction accepts, all the other
characters are kept, trimmed of leading and trailing white space.  No `X` and no
`Y` is ever kept: each is taken for the start of a coordinate. -/
theorem tokens_retained (ops : FloatOps F) (tag : Text) (offsets : Int → Vec2 F)
    (it nt : Int) (translation : Vec2 F) (angle : F) (st : LoopState F) (l : Text)
    (h : starts_with l "G1 ".toList = true) :
    (G1_rest ops tag st.pos l).Sublist ((erase_never_skip tag l).drop 2)
    ∧ (∃ head, (process_line ops tag offsets it nt translation angle st l).line
        = head ++ G1_rest ops tag st.pos l)
    ∧ (∀ kept, find l tag = none → Retained ops (l.drop 2) kept →
        G1_rest ops tag st.pos l = trim kept)
    ∧ (∀ a kept, l = a ++ tag → find l tag = some a.length → Retained ops (a.drop 2) kept →
        G1_rest ops tag st.pos l = trim kept)
    ∧ 'X' ∉ G1_rest ops tag st.pos l ∧ 'Y' ∉ G1_rest ops tag st.pos l := by
  refine ⟨G1_rest_sublist ops tag st.pos l, ?_, ?_, ?_,
    G1_rest_no_coordinate ops tag st.pos l _ (Or.inl rfl),
    G1_rest_no_coordinate ops tag st.pos l _ (Or.inr rfl)⟩
  · rw [process_line_G1_line ops tag offsets it nt translation angle st l h]
    split_ifs
    · exact ⟨_, rfl⟩
    · exact ⟨[], rfl⟩
  · intro kept hno hk
    unfold G1_rest
    rw [erase_never_skip_none tag l hno, tokenize_retained ops _ kept hk, List.nil_append]
  · intro a kept ha hfind hk
    subst ha
    unfold G1_rest
    rw [erase_never_skip_at_end tag a hfind, tokenize_retained ops _ kept hk, List.nil_append]

/-- C13, witness: of `G1 X1 E2` the extrusion amount is kept. -/
theorem tokens_retained_witness :
    G1_rest exactOps upstream_never_skip_tag zero2 "G1 X1 E2".toList = "E2".toList := by
  have hc : (exactOps.read "1 E2".toList).consumed = 1 := by decide!
  have hf : (exactOps.read "1 E2".toList).fail = false := by decide!
  have h1 : Retained exactOps " E2".toList " E2".toList :=
    Retained.keep _ _ _ (by decide) (by decide)
      (Retained.keep _ _ _ (by decide) (by decide)
        (Retained.keep _ _ _ (by decide) (by decide) Retained.done))
  have h2 : Retained exactOps ("1 E2".toList.drop (exactOps.read "1 E2".toList).consumed)
      " E2".toList := by
    rw [hc]
    exact h1
  have h3 : Retained exactOps ("G1 X1 E2".toList.drop 2) "  E2".toList :=
    Retained.keep _ _ _ (by decide) (by decide)
      (Retained.coordinate 'X' "1 E2".toList _ (Or.inl rfl) hf h2)
  have h4 := (tokens_retained exactOps upstream_never_skip_tag (fun _ => zero2) 0 1 zero2
    (Exact.ofInt 0) loop0 "G1 X1 E2".toList (by decide!)).2.2.1 "  E2".toList (by decide!) h3
  rw [show zero2 = loop0.pos from rfl, h4]
  decide!

/-- A never-skip tag in the middle of the line: the erasure takes the tag and
as many further characters as precede it, here ` F1200`; only `E3` is kept. -/
theorem never_skip_tag_in_the_middle :
    (process_line exactOps upstream_never_skip_tag (fun _ => zero2) 0 1 zero2 (Exact.ofInt 0)
        loop0 "G1 X5 _GCODE_WIPE_TOWER_NEVER_SKIP_TAG F1200 E3".toList).line
      = "G1 X5.000 Y0.000 E3".toList := by
  decide!

end Retention

section Offsets
variable {F : Type}

theorem starts_with_tag : starts_with toolchange_tag "G1 ".toList = false := by decide

/-- The extruder offset after a line: that of the new tool when the line is
the tool-change tag, unchanged otherwise. -/
theorem process_line_extruder_offset (ops : FloatOps F) (tag : Text) (offsets : Int → Vec2 F)
    (it nt : Int) (translation : Vec2 F) (angle : F) (st : LoopState F) (l : Text) :
    (process_line ops tag offsets it nt translation angle st l).extruder_offset
      = if l = toolchange_tag then offsets nt else st.extruder_offset := by
  by_cases hg : starts_with l "G1 ".toList = true
  · rw [process_line_G1 ops tag offsets it nt translation angle st l hg]
    have hne : l ≠ toolchange_tag := by
      intro h
      rw [h, starts_with_tag] at hg
      cases hg
    simp only [hne, if_false]
    unfold rewrite_G1
    simp only
    split_ifs <;> rfl
  · have hg2 : starts_with l "G1 ".toList = false := by simpa using hg
    unfold process_line loop_body emit_line
    simp only [hg2, Bool.false_eq_true, if_false]
    by_cases h : l = toolchange_tag
    · simp only [h, if_true]
      split_ifs <;> rfl
    · simp only [h, if_false]

/-- The extruder offset after a run of lines. -/
theorem foldl_extruder_offset (ops : FloatOps F) (tag : Text) (offsets : Int → Vec2 F)
    (it nt : Int) (translation : Vec2 F) (angle : F) :
    ∀ (pre : List Text) (st : LoopState F),
      (pre.foldl (process_line ops tag offsets it nt translation angle) st).extruder_offset
        = if toolchange_tag ∈ pre then offsets nt else st.extruder_offset := by
  intro pre
  induction pre with
  | nil => intro st; simp
  | cons l ls ih =>
    intro st
    rw [List.foldl_cons, ih, process_line_extruder_offset]
    by_cases h1 : toolchange_tag ∈ ls
    · simp [h1]
    · by_cases h2 : l = toolchange_tag
      · simp [h2]
      · have h3 : ¬ toolchange_tag = l := fun h => h2 h.symm
        simp [h1, h2, h3]

/-- C14. Offset-corrected coordinates: on a rewritten `G1` line every `X` or
`Y` value written is the component of the transformed position less the current
nozzle offset, which is `offsets[initial_tool]` as long as no tool-change tag
line has been processed and `offsets[new_tool]` afterwards, written by the
fixed-point formatter with three decimals; whether a coordinate is written is
decided by comparing the uncorrected transformed position with `old_pos`. -/
theorem offset_corrected (ops : FloatOps F) (tag : Text) (offsets : Int → Vec2 F)
    (it nt : Int) (translation : Vec2 F) (angle : F) (st0 s s1 : LoopState F)
    (pre : List Text) (l : Text)
    (h0 : st0.extruder_offset = offsets it)
    (hs : s = pre.foldl (process_line ops tag offsets it nt translation angle) st0)
    (hs1 : s1 = process_line ops tag offsets it nt translation angle s l)
    (hl : starts_with l "G1 ".toList = true) :
    s1.transformed_pos = rotate_translate ops angle translation (G1_pos ops tag s.pos l)
    ∧ s1.line
      = if Vec2.ne ops s1.transformed_pos s.old_pos || (find l tag).isSome
            || !(G1_rest ops tag s.pos l).isEmpty then
          "G1".toList
            ++ (if ops.ne s1.transformed_pos.x s.old_pos.x || (find l tag).isSome then
                  " X".toList ++ ops.fixed3 (ops.sub s1.transformed_pos.x
                    (if toolchange_tag ∈ pre then offsets nt else offsets it).x)
                else [])
            ++ (if ops.ne s1.transformed_pos.y s.old_pos.y || (find l tag).isSome then
                  " Y".toList ++ ops.fixed3 (ops.sub s1.transformed_pos.y
                    (if toolchange_tag ∈ pre then offsets nt else offsets it).y)
                else [])
            ++ (if !(G1_rest ops tag s.pos l).isEmpty then " ".toList else [])
            ++ G1_rest ops tag s.pos l
        else G1_rest ops tag s.pos l := by
  have hoff : s.extruder_offset = if toolchange_tag ∈ pre then offsets nt else offsets it := by
    rw [hs, foldl_extruder_offset, h0]
  have ht : s1.transformed_pos
      = rotate_translate ops angle translation (G1_pos ops tag s.pos l) := by
    rw [hs1, process_line_G1 ops tag offsets it nt translation angle s l hl]
    unfold rewrite_G1
    simp only
    split_ifs <;> rfl
  refine ⟨ht, ?_⟩
  rw [ht, hs1, process_line_G1_line ops tag offsets it nt translation angle s l hl, hoff]
  rfl

/-- C14, witness: tool offsets (0,0) and (1,2); behind a tag line the move to
x = 20 is written as `X19.000`. -/
theorem offset_corrected_witness :
    (process_line exactOps upstream_never_skip_tag offsets01 0 1 zero2 (Exact.ofInt 0)
        (["G1 X10 Y10".toList, toolchange_tag].foldl
          (process_line exactOps upstream_never_skip_tag offsets01 0 1 zero2 (Exact.ofInt 0))
          loop0)
        "G1 X20".toList).line = "G1 X19.000".toList
    ∧ (process_line exactOps upstream_never_skip_tag offsets01 0 1 zero2 (Exact.ofInt 0)
        (["G1 X10 Y10".toList, toolchange_tag].foldl
          (process_line exactOps upstream_never_skip_tag offsets01 0 1 zero2 (Exact.ofInt 0))
          loop0)
        "G1 X20".toList).transformed_pos
      = rotate_translate exactOps (Exact.ofInt 0) zero2
          (G1_pos exactOps upstream_never_skip_tag
            (["G1 X10 Y10".toList, toolchange_tag].foldl
              (process_line exactOps upstream_never_skip_tag offsets01 0 1 zero2 (Exact.ofInt 0))
              loop0).pos
            "G1 X20".toList) :=
  ⟨by decide!,
    (offset_corrected exactOps upstream_never_skip_tag offsets01 0 1 zero2 (Exact.ofInt 0)
      loop0 _ _ ["G1 X10 Y10".toList, toolchange_tag] "G1 X20".toList rfl rfl rfl
      (by decide!)).1⟩

/-- C17, the code at the failing input: a block with two tag lines, tool
offsets (0,0) and (1,2).  Behind the first tag line the move `G1 X9.000 Y8.000`
is synthesized; behind the second one, where the current offset already is
that of the new tool, the move `G1 X19.000 Y8.000` is synthesized again. -/
theorem second_tag_line_synthesizes :
    post_process_wipe_tower_moves exactOps upstream_never_skip_tag offsets01
        (tcr0 ("G1 X10 Y10\n[toolchange_gcode_from_wipe_tower_generator]\nG1 X20\n"
          ++ "[toolchange_gcode_from_wipe_tower_generator]\nG1 X30\n").toList)
        zero2 (Exact.ofInt 0)
      = ("G1 X10.000 Y10.000\n[toolchange_gcode_from_wipe_tower_generator]\n"
          ++ "G1 X9.000 Y8.000\nG1 X19.000\n[toolchange_gcode_from_wipe_tower_generator]\n"
          ++ "G1 X19.000 Y8.000\nG1 X29.000\n\n").toList := by
  decide!

end Offsets

section PassThrough
variable {F : Type}

/-- The loop body only appends to the output. -/
theorem loop_body_grows (ops : FloatOps F) (tag : Text) (offsets : Int → Vec2 F) (it nt : Int)
    (translation : Vec2 F) (angle : F) (st : LoopState F) :
    ∃ suffix, (loop_body ops tag offsets it nt translation angle st).gcode_out
      = st.gcode_out ++ suffix := by
  have hr : (rewrite_G1 ops tag translation angle st).gcode_out = st.gcode_out := by
    unfold rewrite_G1
    simp only
    split_ifs <;> rfl
  have he : ∀ s : LoopState F, ∃ suffix,
      (emit_line ops offsets it nt s).gcode_out = s.gcode_out ++ suffix := by
    intro s
    unfold emit_line
    simp only
    split_ifs
    · simp only [List.append_assoc]
      exact ⟨_, rfl⟩
    · simp only [List.append_assoc]
      exact ⟨_, rfl⟩
    · simp only [List.append_assoc]
      exact ⟨_, rfl⟩
  unfold loop_body
  split_ifs
  · rcases he (rewrite_G1 ops tag translation angle st) with ⟨suffix, h⟩
    exact ⟨suffix, by rw [h, hr]⟩
  · exact he st

/-- A run of the loop only appends to the output. -/
theorem run_lines_grows (body : LoopState F → LoopState F)
    (hb : ∀ st, ∃ suffix, (body st).gcode_out = st.gcode_out ++ suffix) :
    ∀ (ls : List Text) (st : LoopState F),
      ∃ suffix, (run_lines body ls st).gcode_out = st.gcode_out ++ suffix := by
  intro ls
  induction ls with
  | nil => intro st; exact ⟨[], by simp [run_lines]⟩
  | cons l ls ih =>
    intro st
    cases ls with
    | nil =>
      unfold run_lines
      split_ifs
      · exact hb { st with line := [] }
      · rcases hb { st with line := l } with ⟨a, ha⟩
        rcases hb (body { st with line := l }) with ⟨b, hb2⟩
        exact ⟨a ++ b, by rw [hb2, ha]; simp only [List.append_assoc]⟩
    | cons l2 ls =>
      rw [run_lines]
      rcases ih (body { st with line := l }) with ⟨b, hb2⟩
      rcases hb { st with line := l } with ⟨a, ha⟩
      exact ⟨a ++ b, by rw [hb2, ha]; simp only [List.append_assoc]⟩

/-- A run starts with the body on its first line; the rest only appends. -/
theorem run_lines_first (body : LoopState F → LoopState F)
    (hb : ∀ st, ∃ suffix, (body st).gcode_out = st.gcode_out ++ suffix)
    (l : Text) (post : List Text) (st : LoopState F) :
    ∃ suffix, (run_lines body (l :: post) st).gcode_out
      = (body { st with line := l }).gcode_out ++ suffix := by
  cases post with
  | nil =>
    unfold run_lines
    split_ifs with h
    · exact ⟨[], by simp [h]⟩
    · exact hb (body { st with line := l })
  | cons l2 ls =>
    rw [run_lines]
    exact run_lines_grows body hb (l2 :: ls) _

/-- The lines before a given line of the block are processed first, one pass
of the body each. -/
theorem run_lines_append (body : LoopState F → LoopState F) (l : Text) (post : List Text) :
    ∀ (pre : List Text) (st : LoopState F),
      run_lines body (pre ++ l :: post) st
        = run_lines body (l :: post) (pre.foldl (fun s x => body { s with line := x }) st) := by
  intro pre
  induction pre with
  | nil => intro st; rfl
  | cons p ps ih =>
    intro st
    cases hps : ps ++ l :: post with
    | nil => simp at hps
    | cons a b =>
      rw [List.cons_append, hps, run_lines, ← hps, ih]
      rfl

/-- A line that does not begin with `G1 ` is appended as it is, followed by the
synthesized move when it is the tool-change tag and the offsets differ. -/
theorem process_line_other (ops : FloatOps F) (tag : Text) (offsets : Int → Vec2 F)
    (it nt : Int) (translation : Vec2 F) (angle : F) (st : LoopState F) (l : Text)
    (hl : starts_with l "G1 ".toList = false) :
    (process_line ops tag offsets it nt translation angle st l).gcode_out
      = st.gcode_out ++ l ++ "\n".toList
        ++ (if l = toolchange_tag ∧ Vec2.ne ops (offsets nt) (offsets it) = true then
              "G1 X".toList ++ ops.fixed3 (ops.sub st.transformed_pos.x (offsets nt).x)
                ++ " Y".toList ++ ops.fixed3 (ops.sub st.transformed_pos.y (offsets nt).y)
                ++ "\n".toList
            else []) := by
  unfold process_line loop_body emit_line
  simp only [hl, Bool.false_eq_true, if_false]
  by_cases h : l = toolchange_tag
  · by_cases h2 : Vec2.ne ops (offsets nt) (offsets it) = true
    · simp [h, h2]
    · simp [h, h2]
  · simp [h]

/-- C18. Non-motion pass-through: a line of the block that does not begin with
`G1 ` is copied to the output unchanged and ended by a line feed (the
synthesized move follows it when it is the tool-change tag); in the returned
text the copy stands right behind the output of the lines that precede it in
the block, and what the following lines produce comes after it. -/
theorem non_motion_line_copied {D E : Type} (ops : FloatOps F) (tag : Text)
    (offsets : Int → Vec2 F) (tcr : ToolChangeResult F D E) (translation : Vec2 F) (angle : F)
    (pre post : List Text) (l : Text)
    (hsplit : split_lines tcr.gcode = pre ++ l :: post)
    (hl : starts_with l "G1 ".toList = false) :
    ∃ rest, post_process_wipe_tower_moves ops tag offsets tcr translation angle
      = (pre.foldl
          (process_line ops tag offsets tcr.initial_tool tcr.new_tool translation angle)
          (initial_state ops offsets tcr translation angle)).gcode_out
        ++ l ++ "\n".toList ++ rest := by
  rw [post_process_eq_run_lines, hsplit, run_lines_append]
  rcases run_lines_first
    (loop_body ops tag offsets tcr.initial_tool tcr.new_tool translation angle)
    (loop_body_grows ops tag offsets tcr.initial_tool tcr.new_tool translation angle)
    l post
    (pre.foldl (fun s x =>
      loop_body ops tag offsets tcr.initial_tool tcr.new_tool translation angle
        { s with line := x })
      { gcode_out := []
        line := []
        pos := tcr.start_pos
        transformed_pos := rotate_translate ops angle translation tcr.start_pos
        old_pos := { x := ops.old_pos_init, y := ops.old_pos_init }
        extruder_offset := offsets tcr.initial_tool }) with ⟨suffix, hsuf⟩
  rw [hsuf]
  have hp := process_line_other ops tag offsets tcr.initial_tool tcr.new_tool translation angle
    (pre.foldl
      (process_line ops tag offsets tcr.initial_tool tcr.new_tool translation angle)
      (initial_state ops offsets tcr translation angle)) l hl
  unfold process_line initial_state at hp
  rw [hp]
  simp only [List.append_assoc]
  exact ⟨_, rfl⟩

/-- C18, witness: the line `M220 S100` between two moves. -/
theorem non_motion_line_copied_witness :
    ∃ rest, post_process_wipe_tower_moves exactOps upstream_never_skip_tag (fun _ => zero2)
        (tcr0 "G1 X10\nM220 S100\nG1 X20\n".toList) zero2 (Exact.ofInt 0)
      = (["G1 X10".toList].foldl
          (process_line exactOps upstream_never_skip_tag (fun _ => zero2)
            (tcr0 "G1 X10\nM220 S100\nG1 X20\n".toList).initial_tool
            (tcr0 "G1 X10\nM220 S100\nG1 X20\n".toList).new_tool zero2 (Exact.ofInt 0))
          (initial_state exactOps (fun _ => zero2) (tcr0 "G1 X10\nM220 S100\nG1 X20\n".toList)
            zero2 (Exact.ofInt 0))).gcode_out
        ++ "M220 S100".toList ++ "\n".toList ++ rest :=
  non_motion_line_copied exactOps upstream_never_skip_tag (fun _ => zero2)
    (tcr0 "G1 X10\nM220 S100\nG1 X20\n".toList) zero2 (Exact.ofInt 0)
    ["G1 X10".toList] ["G1 X20".toList, []] "M220 S100".toList (by decide!) (by decide!)

end PassThrough

section Prime
variable {F D E G : Type}

/-- The loop of `prime` with text `gcode` already gathered: the gathered text
followed by the concatenation over the entries that have extrusions. -/
theorem prime_loop_eq (ops : FloatOps F) (dops : DoubleOps F D) (gen : Generator G F D)
    (tag : Text) (m : Members F D E) :
    ∀ (l : List (ToolChangeResult F D E)) (g : G) (gcode : Text),
      prime_loop ops dops gen tag m l g gcode
        = match concat_changes ops dops gen tag m
            (l.filter (fun tcr => !tcr.extrusions.isEmpty)) g with
          | (.ok ts, g1) => (.ok (gcode ++ ts), g1)
          | (.error e, g1) => (.error e, g1) := by
  intro l
  induction l with
  | nil => intro g gcode; simp [prime_loop, concat_changes]
  | cons tcr rest ih =>
    intro g gcode
    unfold prime_loop
    by_cases h : tcr.extrusions.isEmpty = true
    · simp only [h, Bool.not_true, Bool.false_eq_true, if_false, List.filter_cons_of_neg,
        not_false_eq_true]
      exact ih g gcode
    · have h1 : (!tcr.extrusions.isEmpty) = true := by simpa using h
      simp only [h1, if_true, List.filter_cons_of_pos]
      rw [concat_changes]
      rcases hr : append_tcr ops dops gen tag m g tcr tcr.new_tool dops.minus_one with ⟨r, g1⟩
      cases r with
      | error e => rfl
      | ok t =>
        simp only
        rw [ih g1 (gcode ++ t)]
        rcases concat_changes ops dops gen tag m
          (rest.filter (fun tcr => !tcr.extrusions.isEmpty)) g1 with ⟨r2, g2⟩
        cases r2 with
        | error e => rfl
        | ok ts => simp [List.append_assoc]

/-- C12. The method `prime` returns the concatenation, in sequence order, of
the `append_tcr` results for exactly the priming entries whose `extrusions` are
not empty, each requested with the entry's own `new_tool`; an entry with empty
`extrusions` adds no text and leaves the generator untouched, so a priming
sequence whose entries all have empty `extrusions` yields the empty text. -/
theorem prime_concatenates (ops : FloatOps F) (dops : DoubleOps F D) (gen : Generator G F D)
    (tag : Text) (m : Members F D E) (g : G) :
    prime ops dops gen tag m g
      = concat_changes ops dops gen tag m
          (m.m_priming.filter (fun tcr => !tcr.extrusions.isEmpty)) g
    ∧ ((∀ tcr ∈ m.m_priming, tcr.extrusions = []) →
        prime ops dops gen tag m g = (.ok [], g)) := by
  have h : prime ops dops gen tag m g
      = concat_changes ops dops gen tag m
          (m.m_priming.filter (fun tcr => !tcr.extrusions.isEmpty)) g := by
    unfold prime
    rw [prime_loop_eq]
    rcases concat_changes ops dops gen tag m
      (m.m_priming.filter (fun tcr => !tcr.extrusions.isEmpty)) g with ⟨r2, g2⟩
    cases r2 with
    | error e => rfl
    | ok ts => simp
  refine ⟨h, fun hall => ?_⟩
  rw [h]
  have : m.m_priming.filter (fun tcr => !tcr.extrusions.isEmpty) = [] := by
    rw [List.filter_eq_nil_iff]
    intro tcr ht
    simp [hall tcr ht]
  rw [this, concat_changes]

/-- C12, witness: a priming sequence whose only entry has no extrusions. -/
theorem prime_concatenates_witness :
    prime exactOps exactDops (recGen cfg0) upstream_never_skip_tag
        { members0 [] 0 0 with m_priming := [{ tcr0 [] with extrusions := [] }] } rec0
      = (.ok [], rec0) :=
  (prime_concatenates exactOps exactDops (recGen cfg0) upstream_never_skip_tag
    { members0 [] 0 0 with m_priming := [{ tcr0 [] with extrusions := [] }] } rec0).2
    (by
      intro tcr h
      simp only [List.mem_singleton] at h
      rw [h])

end Prime

section Travel
variable {F D E G : Type}

theorem travel_required_eq (dops : DoubleOps F D) (gen : Generator G F D)
    (tcr : ToolChangeResult F D E) (new_extruder_id : Int) (z : D) (g : G) :
    should_travel_to_tower tcr.force_travel
        (gen.writer_need_toolchange
          (gen.writer_travel_to_z (gen.writer_get_position g).z [] g).2 new_extruder_id)
        (is_ramming (gen.config (gen.writer_travel_to_z (gen.writer_get_position g).z [] g).2)
          tcr.initial_tool)
        (!dops.is_approx (target_z dops z (gen.writer_get_position g).z)
          (gen.writer_get_position g).z)
      = travel_required dops gen tcr new_extruder_id z g := by
  unfold should_travel_to_tower is_ramming travel_required
  cases tcr.force_travel <;>
  cases gen.writer_need_toolchange
      (gen.writer_travel_to_z (gen.writer_get_position g).z [] g).2 new_extruder_id <;>
  cases (gen.config
      (gen.writer_travel_to_z (gen.writer_get_position g).z [] g).2).single_extruder_multi_material <;>
  cases (gen.config
      (gen.writer_travel_to_z (gen.writer_get_position g).z [] g).2).filament_multitool_ramming
        tcr.initial_tool <;>
  cases dops.is_approx (target_z dops z (gen.writer_get_position g).z)
      (gen.writer_get_position g).z <;> rfl

/-- Lines 42 to 85 by cases on the travel decision. -/
theorem approach_cases (dops : DoubleOps F D) (gen : Generator G F D)
    (tcr : ToolChangeResult F D E) (start_pos : Vec2 F) (new_extruder_id : Int) (z : D) (g : G) :
    approach dops gen tcr start_pos new_extruder_id z g
      = if travel_required dops gen tcr new_extruder_id z g then
          { gcode := (gen.writer_travel_to_z (gen.writer_get_position g).z [] g).1
              ++ (travel_to_tower dops gen start_pos
                    (target_z dops z (gen.writer_get_position g).z)
                    (gen.writer_get_position g).z
                    (gen.writer_travel_to_z (gen.writer_get_position g).z [] g).2).1
              ++ (if !dops.is_approx (target_z dops z (gen.writer_get_position g).z)
                      (gen.writer_get_position g).z then
                    change_z gen (target_z dops z (gen.writer_get_position g).z)
                      "Travel down to the last wipe tower layer.".toList
                      (travel_to_tower dops gen start_pos
                        (target_z dops z (gen.writer_get_position g).z)
                        (gen.writer_get_position g).z
                        (gen.writer_travel_to_z (gen.writer_get_position g).z [] g).2).2
                  else ([], (travel_to_tower dops gen start_pos
                        (target_z dops z (gen.writer_get_position g).z)
                        (gen.writer_get_position g).z
                        (gen.writer_travel_to_z (gen.writer_get_position g).z [] g).2).2)).1
            z := target_z dops z (gen.writer_get_position g).z
            current_z := (gen.writer_get_position g).z
            state := (if !dops.is_approx (target_z dops z (gen.writer_get_position g).z)
                      (gen.writer_get_position g).z then
                    change_z gen (target_z dops z (gen.writer_get_position g).z)
                      "Travel down to the last wipe tower layer.".toList
                      (travel_to_tower dops gen start_pos
                        (target_z dops z (gen.writer_get_position g).z)
                        (gen.writer_get_position g).z
                        (gen.writer_travel_to_z (gen.writer_get_position g).z [] g).2).2
                  else ([], (travel_to_tower dops gen start_pos
                        (target_z dops z (gen.writer_get_position g).z)
                        (gen.writer_get_position g).z
                        (gen.writer_travel_to_z (gen.writer_get_position g).z [] g).2).2)).2 }
        else
          { gcode := (gen.writer_travel_to_z (gen.writer_get_position g).z [] g).1
            z := target_z dops z (gen.writer_get_position g).z
            current_z := (gen.writer_get_position g).z
            state := (gen.writer_travel_to_z (gen.writer_get_position g).z [] g).2 } := by
  unfold approach
  simp only [travel_required_eq]
  by_cases h : travel_required dops gen tcr new_extruder_id z g = true
  · simp only [h, if_true]
  · have h2 : travel_required dops gen tcr new_extruder_id z g = false := by simpa using h
    have h3 : dops.is_approx (target_z dops z (gen.writer_get_position g).z)
        (gen.writer_get_position g).z = true := by
      unfold travel_required at h2
      simp only [Bool.or_eq_false_iff, Bool.not_eq_false'] at h2
      exact h2.2
    simp only [h2, h3, Bool.false_eq_true, if_false, Bool.not_true, List.append_nil]

/-- C15. Travel decision in `append_tcr`: behind the initial
`travel_to_z(current_z)`, the travel to the tower (stop of the object label,
retract and wipe, one-shot external routing, the move to the transformed start
position, de-retract) is carried out exactly when the result forces it, or no
tool change is needed for the requested tool, or the printer is single-extruder
multi-material, or ramming is enabled for the initial tool, or the target
height is not the current one.  When none of these holds, no operation other
than that initial `travel_to_z(current_z)` is requested before the sub-blocks,
and with a writer that emits nothing for a move to the height it is at, no text
is emitted. -/
theorem travel_decision (dops : DoubleOps F D) (gen : Generator G F D)
    (tcr : ToolChangeResult F D E) (start_pos : Vec2 F) (new_extruder_id : Int) (z : D) (g : G) :
    (travel_required dops gen tcr new_extruder_id z g = true →
      ∃ down, (approach dops gen tcr start_pos new_extruder_id z g).gcode
          = (gen.writer_travel_to_z (gen.writer_get_position g).z [] g).1
            ++ (travel_to_tower dops gen start_pos
                  (target_z dops z (gen.writer_get_position g).z)
                  (gen.writer_get_position g).z
                  (gen.writer_travel_to_z (gen.writer_get_position g).z [] g).2).1
            ++ down.1
        ∧ (approach dops gen tcr start_pos new_extruder_id z g).state = down.2
        ∧ down = (if !dops.is_approx (target_z dops z (gen.writer_get_position g).z)
                      (gen.writer_get_position g).z then
                    change_z gen (target_z dops z (gen.writer_get_position g).z)
                      "Travel down to the last wipe tower layer.".toList
                      (travel_to_tower dops gen start_pos
                        (target_z dops z (gen.writer_get_position g).z)
                        (gen.writer_get_position g).z
                        (gen.writer_travel_to_z (gen.writer_get_position g).z [] g).2).2
                  else ([], (travel_to_tower dops gen start_pos
                        (target_z dops z (gen.writer_get_position g).z)
                        (gen.writer_get_position g).z
                        (gen.writer_travel_to_z (gen.writer_get_position g).z [] g).2).2)))
    ∧ (travel_required dops gen tcr new_extruder_id z g = false →
        (approach dops gen tcr start_pos new_extruder_id z g).gcode
          = (gen.writer_travel_to_z (gen.writer_get_position g).z [] g).1
        ∧ (approach dops gen tcr start_pos new_extruder_id z g).state
          = (gen.writer_travel_to_z (gen.writer_get_position g).z [] g).2
        ∧ ((gen.writer_travel_to_z (gen.writer_get_position g).z [] g).1 = [] →
          (approach dops gen tcr start_pos new_extruder_id z g).gcode = [])) := by
  constructor
  · intro h
    rw [approach_cases, h]
    exact ⟨_, rfl, rfl, rfl⟩
  · intro h
    rw [approach_cases, h]
    exact ⟨rfl, rfl, fun h2 => h2⟩

/-- C15, witness: tool 1 is requested while tool 0 is active, several
extruders, no ramming, no forced travel, the sentinel height: no travel to the
tower, and nothing is emitted before the sub-blocks. -/
theorem travel_decision_witness :
    (approach exactDops (quietGen cfg0) (tcr0 []) zero2 1 (Exact.ofInt (-1)) rec0).gcode = []
    ∧ (approach exactDops (quietGen cfg0) (tcr0 []) zero2 1 (Exact.ofInt (-1)) rec0).state.calls
      = [Call.writer_travel_to_z []] :=
  ⟨((travel_decision exactDops (quietGen cfg0) (tcr0 []) zero2 1 (Exact.ofInt (-1)) rec0).2
      (by decide!)).2.2 (by decide!),
    by decide!⟩

end Travel

section Cursors
variable {F D E G : Type}

/-- A call of `tool_change` that reaches a planned change carries it out with
the requested tool and the sentinel height, the change cursor advanced. -/
theorem tool_change_performs (ops : FloatOps F) (dops : DoubleOps F D)
    (gen : Generator G F D) (tag : Text) (m : Members F D E) (g : G) (extruder_id : Int)
    (finish_layer : Bool) (layer : List (ToolChangeResult F D E)) (tcr : ToolChangeResult F D E)
    (hneed : (gen.writer_need_toolchange g extruder_id || finish_layer) = true)
    (hlayer : (m.m_layer_idx : Int) < int_of_size m.m_tool_changes.length)
    (hget : m.m_tool_changes[m.m_layer_idx]? = some layer)
    (htcr : layer[size_of_int m.m_tool_change_idx]? = some tcr) :
    tool_change ops dops gen tag m g extruder_id finish_layer
      = match append_tcr ops dops gen tag m g tcr extruder_id dops.minus_one with
        | (.ok t, g1) =>
          (.ok t, { m with m_tool_change_idx := m.m_tool_change_idx + 1
                           m_last_wipe_tower_print_z := dops.minus_one }, g1)
        | (.error e, g1) =>
          (.error e, { m with m_tool_change_idx := m.m_tool_change_idx + 1 }, g1) := by
  have hlt : size_of_int m.m_tool_change_idx < layer.length := by
    rcases List.getElem?_eq_some.1 htcr with ⟨h, _⟩
    exact h
  unfold tool_change
  simp only [hneed, hlayer, if_true, hget, hlt, not_true_eq_false, if_false, htcr]

/-- Whatever the call, the members `tool_change` leaves are the old ones, or
the old ones with the change cursor advanced by one, or these with
`m_last_wipe_tower_print_z` set to the sentinel. -/
theorem tool_change_members (ops : FloatOps F) (dops : DoubleOps F D)
    (gen : Generator G F D) (tag : Text) (m : Members F D E) (g : G) (extruder_id : Int)
    (finish_layer : Bool) :
    (tool_change ops dops gen tag m g extruder_id finish_layer).2.1 = m
    ∨ (tool_change ops dops gen tag m g extruder_id finish_layer).2.1
      = { m with m_tool_change_idx := m.m_tool_change_idx + 1 }
    ∨ (tool_change ops dops gen tag m g extruder_id finish_layer).2.1
      = { m with m_tool_change_idx := m.m_tool_change_idx + 1
                 m_last_wipe_tower_print_z := dops.minus_one } := by
  by_cases h1 : (gen.writer_need_toolchange g extruder_id || finish_layer) = true
  · by_cases h2 : (m.m_layer_idx : Int) < int_of_size m.m_tool_changes.length
    · cases hget : m.m_tool_changes[m.m_layer_idx]? with
      | none =>
        left
        unfold tool_change
        simp only [h1, h2, if_true, hget]
      | some layer =>
        by_cases h3 : size_of_int m.m_tool_change_idx < layer.length
        · cases htcr : layer[size_of_int m.m_tool_change_idx]? with
          | none =>
            left
            unfold tool_change
            simp only [h1, h2, if_true, hget, h3, not_true_eq_false, if_false, htcr]
          | some tcr =>
            rw [tool_change_performs ops dops gen tag m g extruder_id finish_layer layer tcr h1 h2
              hget htcr]
            rcases append_tcr ops dops gen tag m g tcr extruder_id dops.minus_one with ⟨r, g1⟩
            cases r with
            | error e => exact Or.inr (Or.inl rfl)
            | ok t => exact Or.inr (Or.inr rfl)
        · left
          unfold tool_change
          simp only [h1, h2, if_true, hget, h3, not_false_eq_true]
    · left
      unfold tool_change
      simp only [h1, h2, if_true, if_false]
  · left
    unfold tool_change
    simp only [h1, Bool.false_eq_true, if_false]

/-- C16. Cursor discipline of `tool_change`: a call that reaches a planned
change fetches `m_tool_changes[m_layer_idx][m_tool_change_idx]` and advances
`m_tool_change_idx` by exactly one, whether `append_tcr` then returns or
throws; and whatever the call and its outcome, `m_layer_idx`, `m_tool_changes`
and `m_priming` are left as they were and `m_tool_change_idx` is left as it was
or greater by one.  The method `finalize` returns the empty text and touches
nothing; `prime` assigns no member either, its model returns none. -/
theorem cursor_discipline (ops : FloatOps F) (dops : DoubleOps F D)
    (gen : Generator G F D) (tag : Text) (m : Members F D E) (g : G) (extruder_id : Int)
    (finish_layer : Bool) :
    (tool_change ops dops gen tag m g extruder_id finish_layer).2.1.m_layer_idx = m.m_layer_idx
    ∧ (tool_change ops dops gen tag m g extruder_id finish_layer).2.1.m_tool_changes
      = m.m_tool_changes
    ∧ (tool_change ops dops gen tag m g extruder_id finish_layer).2.1.m_priming = m.m_priming
    ∧ ((tool_change ops dops gen tag m g extruder_id finish_layer).2.1.m_tool_change_idx
        = m.m_tool_change_idx
      ∨ (tool_change ops dops gen tag m g extruder_id finish_layer).2.1.m_tool_change_idx
        = m.m_tool_change_idx + 1)
    ∧ finalize m g = ([], g)
    ∧ ∀ (layer : List (ToolChangeResult F D E)) (tcr : ToolChangeResult F D E),
        (gen.writer_need_toolchange g extruder_id || finish_layer) = true →
        (m.m_layer_idx : Int) < int_of_size m.m_tool_changes.length →
        m.m_tool_changes[m.m_layer_idx]? = some layer →
        layer[size_of_int m.m_tool_change_idx]? = some tcr →
        (tool_change ops dops gen tag m g extruder_id finish_layer).1
          = (append_tcr ops dops gen tag m g tcr extruder_id dops.minus_one).1
        ∧ (tool_change ops dops gen tag m g extruder_id finish_layer).2.2
          = (append_tcr ops dops gen tag m g tcr extruder_id dops.minus_one).2
        ∧ (tool_change ops dops gen tag m g extruder_id finish_layer).2.1.m_tool_change_idx
          = m.m_tool_change_idx + 1 := by
  have hm := tool_change_members ops dops gen tag m g extruder_id finish_layer
  refine ⟨?_, ?_, ?_, ?_, rfl, ?_⟩
  · rcases hm with h | h | h <;> rw [h]
  · rcases hm with h | h | h <;> rw [h]
  · rcases hm with h | h | h <;> rw [h]
  · rcases hm with h | h | h
    · exact Or.inl (by rw [h])
    · exact Or.inr (by rw [h])
    · exact Or.inr (by rw [h])
  · intro layer tcr hneed hlayer hget htcr
    rw [tool_change_performs ops dops gen tag m g extruder_id finish_layer layer tcr hneed hlayer
      hget htcr]
    rcases append_tcr ops dops gen tag m g tcr extruder_id dops.minus_one with ⟨r, g1⟩
    cases r with
    | error e => exact ⟨rfl, rfl, rfl⟩
    | ok t => exact ⟨rfl, rfl, rfl⟩

/-- C16, witness: the first planned change of the first layer is carried out
and the change cursor moves from 0 to 1. -/
theorem cursor_discipline_witness :
    (tool_change exactOps exactDops (recGen cfg0) upstream_never_skip_tag
      (members0 [[tcr0 []]] 0 0) rec0 1 false).2.1.m_tool_change_idx = 0 + 1 :=
  ((cursor_discipline exactOps exactDops (recGen cfg0) upstream_never_skip_tag
      (members0 [[tcr0 []]] 0 0) rec0 1 false).2.2.2.2.2 [tcr0 []] (tcr0 [])
    (by decide!) (by decide!) rfl rfl).2.2

end Cursors

section Heights
variable {F D E G : Type}

/-- C19, as stated, fails: with a default acceleration of 0 the call still
requests `set_print_acceleration` from the writer, once, for the restoration,
and returns normally. -/
theorem restoration_requested_without_override :
    (append_tcr exactOps exactDops (recGen cfg0) upstream_never_skip_tag (members0 [] 0 0)
        rec0 (tcr0 []) 1 (Exact.ofInt (-1))).2.calls
      = [Call.writer_travel_to_z [], Call.set_extruder 0, Call.set_extruder 1,
          Call.writer_get_travel_to_z_gcode, Call.writer_update_position, Call.unretract,
          Call.writer_set_print_acceleration 0, Call.writer_travel_to_xy,
          Call.set_last_position, Call.set_use_external_mp_once]
    ∧ exactDops.gt_zero cfg0.default_acceleration = false := by
  decide!

/-- C19, amended. In `append_tcr` the acceleration override (the tower
acceleration, before the block) is requested from the writer exactly when the
configured default acceleration is positive; the restoration (the default
acceleration, after the block) is requested in every call that reaches the
block, also when the default acceleration is not positive. -/
theorem acceleration_bracket (dops : DoubleOps F D) (gen : Generator G F D)
    (gcode tcr_gcode : Text) (end_pos : Vec2 F) (z current_z : D) (g : G) :
    acceleration_override dops gen g
      = (if dops.gt_zero (gen.config g).default_acceleration then
          gen.writer_set_print_acceleration
            (dops.fast_round_up (gen.config g).wipe_tower_acceleration) g
        else ([], g))
    ∧ ∃ tail, (finish_block dops gen gcode tcr_gcode end_pos z current_z g).1
      = gcode ++ (acceleration_override dops gen g).1 ++ tcr_gcode
        ++ (gen.writer_set_print_acceleration
              (dops.fast_round_up
                (gen.config (acceleration_override dops gen g).2).default_acceleration)
              (acceleration_override dops gen g).2).1
        ++ tail := by
  refine ⟨rfl, ?_⟩
  unfold finish_block acceleration_override
  exact ⟨_, rfl⟩

/-- Exact arithmetic finds every height approximately equal to itself. -/
theorem exactDops_is_approx_refl (a : Exact) : exactDops.is_approx a a = true := by
  have hd := a.den_pos
  have hnum : (Exact.sub a a).num = 0 := by
    simp only [Exact.sub, Exact.add, Exact.neg]
    ring
  have hden : (Exact.sub a a).den = a.den * a.den := rfl
  show decide ((Exact.sub a a).num.natAbs * 10000 < (Exact.sub a a).den) = true
  rw [hnum, hden]
  simp only [Int.natAbs_zero, zero_mul, decide_eq_true_eq]
  exact Nat.mul_pos hd hd

/-- C20. Every change carried out through `tool_change` runs at the writer's
current height: `tool_change` passes the sentinel `-1.`, `append_tcr` replaces
it by `current_z`, so (for a height that `is_approx` finds equal to itself) the
target-height condition adds nothing to the travel decision, the move down
before the block and the move back up behind it are not emitted, and after a
call that carried out a change `m_last_wipe_tower_print_z` is the sentinel. -/
theorem sentinel_height (ops : FloatOps F) (dops : DoubleOps F D)
    (gen : Generator G F D) (tag : Text) (m : Members F D E) (g : G)
    (tcr : ToolChangeResult F D E) (extruder_id : Int) (start_pos end_pos : Vec2 F)
    (hrefl : ∀ a, dops.is_approx a a = true)
    (heq : dops.eq dops.minus_one dops.minus_one = true) :
    (approach dops gen tcr start_pos extruder_id dops.minus_one g).z
      = (gen.writer_get_position g).z
    ∧ (approach dops gen tcr start_pos extruder_id dops.minus_one g).current_z
      = (gen.writer_get_position g).z
    ∧ travel_required dops gen tcr extruder_id dops.minus_one g
      = (tcr.force_travel
        || !gen.writer_need_toolchange
            (gen.writer_travel_to_z (gen.writer_get_position g).z [] g).2 extruder_id
        || (gen.config (gen.writer_travel_to_z (gen.writer_get_position g).z
              [] g).2).single_extruder_multi_material
        || (gen.config (gen.writer_travel_to_z (gen.writer_get_position g).z
              [] g).2).filament_multitool_ramming tcr.initial_tool)
    ∧ (approach dops gen tcr start_pos extruder_id dops.minus_one g).gcode
      = (gen.writer_travel_to_z (gen.writer_get_position g).z [] g).1
        ++ (if travel_required dops gen tcr extruder_id dops.minus_one g then
              (travel_to_tower dops gen start_pos (gen.writer_get_position g).z
                (gen.writer_get_position g).z
                (gen.writer_travel_to_z (gen.writer_get_position g).z [] g).2).1
            else [])
    ∧ (∀ (gcode tcr_gcode : Text) (cz : D) (g1 : G),
        (finish_block dops gen gcode tcr_gcode end_pos cz cz g1).1
          = gcode ++ (acceleration_override dops gen g1).1 ++ tcr_gcode
            ++ (gen.writer_set_print_acceleration
                  (dops.fast_round_up
                    (gen.config (acceleration_override dops gen g1).2).default_acceleration)
                  (acceleration_override dops gen g1).2).1)
    ∧ (∀ (finish_layer : Bool) (layer : List (ToolChangeResult F D E)) (t : Text) (g1 : G),
        (gen.writer_need_toolchange g extruder_id || finish_layer) = true →
        (m.m_layer_idx : Int) < int_of_size m.m_tool_changes.length →
        m.m_tool_changes[m.m_layer_idx]? = some layer →
        layer[size_of_int m.m_tool_change_idx]? = some tcr →
        append_tcr ops dops gen tag m g tcr extruder_id dops.minus_one = (.ok t, g1) →
        tool_change ops dops gen tag m g extruder_id finish_layer
          = (.ok t, { m with m_tool_change_idx := m.m_tool_change_idx + 1
                             m_last_wipe_tower_print_z := dops.minus_one }, g1)) := by
  have htz : ∀ cz, target_z dops dops.minus_one cz = cz := by
    intro cz
    unfold target_z
    rw [heq]
    rfl
  have htr : travel_required dops gen tcr extruder_id dops.minus_one g
      = (tcr.force_travel
        || !gen.writer_need_toolchange
            (gen.writer_travel_to_z (gen.writer_get_position g).z [] g).2 extruder_id
        || (gen.config (gen.writer_travel_to_z (gen.writer_get_position g).z
              [] g).2).single_extruder_multi_material
        || (gen.config (gen.writer_travel_to_z (gen.writer_get_position g).z
              [] g).2).filament_multitool_ramming tcr.initial_tool) := by
    unfold travel_required
    rw [htz, hrefl]
    simp
  refine ⟨?_, ?_, htr, ?_, ?_, ?_⟩
  · rw [approach_cases]
    split_ifs <;> exact htz _
  · rw [approach_cases]
    split_ifs <;> rfl
  · rw [approach_cases]
    by_cases h : travel_required dops gen tcr extruder_id dops.minus_one g = true
    · simp only [h, if_true, htz, hrefl, Bool.not_true, Bool.false_eq_true, if_false,
        List.append_nil]
    · have h2 : travel_required dops gen tcr extruder_id dops.minus_one g = false := by
        simpa using h
      simp only [h2, Bool.false_eq_true, if_false, List.append_nil]
  · intro gcode tcr_gcode cz g1
    unfold finish_block acceleration_override
    simp only [hrefl, Bool.not_true, Bool.false_eq_true, if_false, List.append_nil]
  · intro finish_layer layer t g1 hneed hlayer hget htcr happ
    rw [tool_change_performs ops dops gen tag m g extruder_id finish_layer layer tcr hneed hlayer
      hget htcr, happ]

/-- C20, witness: in exact arithmetic a change carried out through
`tool_change` starts at the writer's height and leaves the sentinel in
`m_last_wipe_tower_print_z`. -/
theorem sentinel_height_witness :
    (approach exactDops (quietGen cfg0) (tcr0 []) zero2 1 exactDops.minus_one rec0).z
      = ((quietGen cfg0).writer_get_position rec0).z
    ∧ (tool_change exactOps exactDops (quietGen cfg0) upstream_never_skip_tag
        (members0 [[tcr0 []]] 0 0) rec0 1 false).2.1.m_last_wipe_tower_print_z.num = -1 :=
  ⟨(sentinel_height exactOps exactDops (quietGen cfg0) upstream_never_skip_tag
      (members0 [[tcr0 []]] 0 0) rec0 (tcr0 []) 1 zero2 zero2 exactDops_is_approx_refl
      (by decide!)).1,
    by decide!⟩

end Heights

end WipeTowerIntegration
